import Mathlib

/-!
Shallow embedding of the framing-calc layout and cut-optimization engine.

Sources:
* `src/services/geometryService.ts` (first variant: `calculateOpeningLayouts`,
  `generateWallMembers`);
* `src/unnamed/part_004` (the material service: `optimizeCuts`,
  `calculateWallCuts`, `processRawCuts`).

JS numbers are modelled as exact rationals; `Math.round` is round half toward
positive infinity, `Math.floor`/`Math.ceil` are the usual floor/ceiling.
JS `Set` / object-key insertion semantics are modelled by order-preserving
first-occurrence lists and association lists.
-/

/-- JS `Math.round`: round half toward positive infinity. -/
def jsRound (q : ℚ) : ℤ := ⌊q + 1/2⌋

/-- `Math.round(x * 100) / 100` — a position rounded to hundredths
    (geometryService.ts line 164). -/
def roundHundredths (q : ℚ) : ℚ := (jsRound (q * 100) : ℚ) / 100

/-- JS `Set` insertion semantics: keep the first occurrence of each element,
    in encounter order. -/
def jsSetList {α : Type} [DecidableEq α] : List α → List α
  | [] => []
  | a :: l => a :: jsSetList (l.filter (· ≠ a))
termination_by l => l.length
decreasing_by
  simp only [List.length_cons]
  exact Nat.lt_succ_of_le (List.length_filter_le _ _)

/-- Helper for `jsIncludes`: does `pat` occur as a contiguous run in `l`? -/
def containsRun (pat : List Char) : List Char → Bool
  | [] => pat.isEmpty
  | c :: rest => pat.isPrefixOf (c :: rest) || containsRun pat rest

/-- JS `String.prototype.includes` (substring containment). -/
def jsIncludes (s pat : String) : Bool := containsRun pat.toList s.toList

/-- A state-threading `map`: the JS pattern of a loop that pushes one element
    per iteration while mutating an accumulator (here: the member-id counters). -/
def stMap {σ α β : Type} (f : σ → α → β × σ) : σ → List α → List β × σ
  | s, [] => ([], s)
  | s, a :: l =>
    let r := f s a
    let t := stMap f r.2 l
    (r.1 :: t.1, t.2)

/-- A state-threading `flatMap`, used for loops that push several members per
    iteration while mutating the id counters. -/
def stFlatMap {σ α β : Type} (f : σ → α → List β × σ) : σ → List α → List β × σ
  | s, [] => ([], s)
  | s, a :: l =>
    let r := f s a
    let t := stFlatMap f r.2 l
    (r.1 ++ t.1, t.2)

/-! ## Data model (src/types.ts) -/
/-- `StudSize = '2x4' | '2x6'`. -/
inductive StudSize : Type
  | s2x4
  | s2x6
deriving DecidableEq, Repr

def StudSize.name : StudSize → String
  | .s2x4 => "2x4"
  | .s2x6 => "2x6"

/-- `studDepths` (geometryService.ts). -/
def studDepths : StudSize → ℚ
  | .s2x4 => 3.5
  | .s2x6 => 5.5

/-- `HeaderSize = '2x6' | '2x8' | '2x10' | '2x12'`. -/
inductive HeaderSize : Type
  | h2x6
  | h2x8
  | h2x10
  | h2x12
deriving DecidableEq, Repr

def HeaderSize.name : HeaderSize → String
  | .h2x6 => "2x6"
  | .h2x8 => "2x8"
  | .h2x10 => "2x10"
  | .h2x12 => "2x12"

/-- `headerHeights` (identical tables in geometryService.ts and part_004). -/
def headerHeights : HeaderSize → ℚ
  | .h2x6 => 5.5
  | .h2x8 => 7.25
  | .h2x10 => 9.25
  | .h2x12 => 11.25

inductive OpeningType : Type
  | window
  | door
deriving DecidableEq, Repr

/-- `studSpacing: 8 | 12 | 16 | 24` (types.ts). -/
inductive StudSpacing : Type
  | s8
  | s12
  | s16
  | s24
deriving DecidableEq, Repr

def StudSpacing.val : StudSpacing → ℚ
  | .s8 => 8
  | .s12 => 12
  | .s16 => 16
  | .s24 => 24

/-- `Opening` (types.ts). `centerOffset = some c` models a defined, non-NaN,
    non-null `centerOffset`; `headerTopOffset` likewise. -/
structure Opening : Type where
  id : String
  type : OpeningType
  quantity : ℕ
  width : ℚ
  height : ℚ
  headerSize : HeaderSize
  headerPly : ℕ
  kingStudsPerSide : ℕ
  jackStudsPerSide : ℕ
  centerOffset : Option ℚ
  headerTopOffset : Option ℚ
deriving DecidableEq, Repr

/-- `WallDetails` (types.ts). -/
structure WallDetails : Type where
  wallLength : ℚ
  wallHeight : ℚ
  studSize : StudSize
  studSpacing : StudSpacing
  studsOnCenter : ℕ
  doubleTopPlate : Bool
  pressureTreatedBottomPlate : Bool
  blockingRows : ℕ
  startStuds : ℕ
  endStuds : ℕ
  sheathing : Bool
  sheathingType : String
  openings : List Opening
deriving DecidableEq, Repr

def PLATE_THICKNESS : ℚ := 1.5

def STUD_THICKNESS : ℚ := 1.5

inductive MemberType : Type
  | plate
  | ptPlate
  | stud
  | kingJack
  | header
  | sill
  | cripple
  | blocking
  | sheathing
deriving DecidableEq, Repr

/-- `Member3D` (types.ts): position is the top-left-front corner, `y` measured
    down from the top of the wall. -/
structure Member3D : Type where
  id : String
  name : String
  x : ℚ
  y : ℚ
  z : ℚ
  w : ℚ
  h : ℚ
  d : ℚ
  type : MemberType
deriving DecidableEq, Repr

/-! ## Opening Layout Resolver (geometryService.ts, `calculateOpeningLayouts`) -/
structure PositionedOpening : Type where
  opening : Opening
  index : ℕ
  xStart : ℚ
  xEnd : ℚ
  center : ℚ
  frameWidth : ℚ
deriving DecidableEq, Repr

/-- The frame width expression
    `op.width + 2*(op.kingStudsPerSide*STUD_THICKNESS) + 2*(op.jackStudsPerSide*STUD_THICKNESS)`
    that `calculateOpeningLayouts` computes inline for each opening. -/
def openingFrameWidth (op : Opening) : ℚ :=
  op.width + 2 * ((op.kingStudsPerSide : ℚ) * STUD_THICKNESS)
    + 2 * ((op.jackStudsPerSide : ℚ) * STUD_THICKNESS)

/-- `openings.filter(op => op.quantity > 0 && op.width > 0)`. -/
def activeOpenings (openings : List Opening) : List Opening :=
  openings.filter fun op => decide (0 < op.quantity) && decide (0 < op.width)

/-- The manual branch: `centerOffset` defined and `quantity === 1`. -/
def manualLayouts (active : List Opening) : List PositionedOpening :=
  active.filterMap fun op =>
    match op.centerOffset with
    | some c =>
      if op.quantity = 1 then
        let fw := openingFrameWidth op
        some ⟨op, 0, c - fw / 2, c - fw / 2 + fw, c, fw⟩
      else none
    | none => none

/-- The auto-flow branch: every active opening that is not manual is expanded
    into `quantity` instances. -/
def autoInstances (active : List Opening) : List Opening :=
  active.flatMap fun op =>
    if op.centerOffset.isSome && op.quantity == 1 then []
    else List.replicate op.quantity op

/-- `spacing = (wallLength - totalAutoWidth) / (autoOpenings.length + 1)`.
    Note: the source does NOT clamp this at zero. -/
def autoSpacing (wallLength : ℚ) (openings : List Opening) : ℚ :=
  let autos := autoInstances (activeOpenings openings)
  (wallLength - (autos.map openingFrameWidth).sum) / (autos.length + 1)

/-- The auto-flow placement loop: place each instance at `currentX`, then
    advance by `frameWidth + spacing`. -/
def autoFlow (spacing : ℚ) : ℚ → ℕ → List Opening → List PositionedOpening
  | _, _, [] => []
  | currentX, idx, op :: rest =>
    let fw := openingFrameWidth op
    ⟨op, idx, currentX, currentX + fw, currentX + fw / 2, fw⟩ ::
      autoFlow spacing (currentX + fw + spacing) (idx + 1) rest

/-- `calculateOpeningLayouts` (geometryService.ts lines 42-99): auto instances
    first (in input order), then manual instances sorted by `xStart`. -/
def calculateOpeningLayouts (wallLength : ℚ) (openings : List Opening) :
    List PositionedOpening :=
  let active := activeOpenings openings
  if active.isEmpty then []
  else
    let manualSorted :=
      List.insertionSort (fun a b => a.xStart ≤ b.xStart) (manualLayouts active)
    let autos := autoInstances active
    let positioned :=
      if autos.isEmpty then []
      else autoFlow (autoSpacing wallLength openings) (autoSpacing wallLength openings) 0 autos
    positioned ++ manualSorted

/-- `openingLayouts.some(pos => c > pos.xStart && c < pos.xEnd)` — the strict
    interior test used for stud suppression and blocking midpoints. -/
def insideSpan (spans : List PositionedOpening) (c : ℚ) : Bool :=
  spans.any fun p => decide (p.xStart < c) && decide (c < p.xEnd)

/-! ## Member Generator (geometryService.ts, `generateWallMembers`) -/
/-- `toString` of a rational to two decimals, modelling JS `toFixed(2)`
    (only reached by `formatInchesForName` for non-standard fractions; no
    claim depends on this branch). -/
def ratToFixed2 (q : ℚ) : String :=
  let m : ℤ := jsRound (q * 100)
  let sign := if m < 0 then "-" else ""
  let a := m.natAbs
  let frac := a % 100
  sign ++ toString (a / 100) ++ "." ++ (if frac < 10 then "0" else "") ++ toString frac

/-- One decimal, modelling JS `toFixed(1)` (sheathing panel names). -/
def ratToFixed1 (q : ℚ) : String :=
  let m : ℤ := jsRound (q * 10)
  let sign := if m < 0 then "-" else ""
  let a := m.natAbs
  sign ++ toString (a / 10) ++ "." ++ toString (a % 10)

/-- `formatInchesForName` (geometryService.ts lines 15-30). -/
def formatInchesForName (inches : ℚ) : String :=
  let whole : ℤ := ⌊inches⌋
  let frac := inches - whole
  if |frac| < 1/100 then toString whole
  else if |frac - 1/8| < 1/100 then toString whole ++ " 1/8"
  else if |frac - 1/4| < 1/100 then toString whole ++ " 1/4"
  else if |frac - 3/8| < 1/100 then toString whole ++ " 3/8"
  else if |frac - 1/2| < 1/100 then toString whole ++ " 1/2"
  else if |frac - 5/8| < 1/100 then toString whole ++ " 5/8"
  else if |frac - 3/4| < 1/100 then toString whole ++ " 3/4"
  else if |frac - 7/8| < 1/100 then toString whole ++ " 7/8"
  else ratToFixed2 inches

/-- `type.charAt(0).toUpperCase() + type.slice(1)`. -/
def capFirst (s : String) : String :=
  match s.toList with
  | [] => ""
  | c :: cs => String.mk (c.toUpper :: cs)

/-- The per-call `memberIdCounters` object: an insertion-ordered association
    list from generated member names to counts. -/
abbrev Counters : Type := List (String × ℕ)

/-- `getMemberData` (geometryService.ts lines 108-115): build `name` from
    size, formatted length and capitalized type; bump the per-name counter and
    derive `id`. -/
def getMemberData (σ : Counters) (size : String) (length : ℚ) (type : String) :
    (String × String) × Counters :=
  let name := size ++ "x" ++ formatInchesForName length ++ " " ++ capFirst type
  let count := ((σ.lookup name).getD 0) + 1
  let σ' :=
    if (σ.lookup name).isSome then
      σ.map fun p => if p.1 = name then (p.1, count) else p
    else σ ++ [(name, count)]
  ((name ++ " " ++ toString count, name), σ')

/-- `if d.doubleTopPlate then 2*PLATE_THICKNESS else PLATE_THICKNESS`. -/
def topPlateHeightD (d : WallDetails) : ℚ :=
  if d.doubleTopPlate then 2 * PLATE_THICKNESS else PLATE_THICKNESS

/-- `studHeight = wallHeight - topPlateHeight - bottomPlateHeight`. -/
def studHeightD (d : WallDetails) : ℚ :=
  d.wallHeight - topPlateHeightD d - PLATE_THICKNESS

/-- `startStuds || 1` (JS: a zero count falls back to 1). -/
def startStudCountD (d : WallDetails) : ℕ :=
  if d.startStuds = 0 then 1 else d.startStuds

def endStudCountD (d : WallDetails) : ℕ :=
  if d.endStuds = 0 then 1 else d.endStuds

/-- The index list of the loop `for (let i = 1; i * s < L; i++)` for `s > 0`:
    exactly the `i ≥ 1` with `i * s < L`. -/
def ocIndices (L s : ℚ) : List ℕ :=
  (List.range (⌈L / s⌉ - 1).toNat).map (· + 1)

/-- The raw stud x-positions pushed by `generateWallMembers` (lines 140-160):
    start studs, end studs, then on-center groups guarded to lie strictly
    between the start- and end-stud blocks. -/
def geomRawStudXs (L : ℚ) (startCount endCount soc : ℕ) (s : ℚ) : List ℚ :=
  ((List.range startCount).map fun (i : ℕ) => (i : ℚ) * STUD_THICKNESS)
    ++ ((List.range endCount).map fun (i : ℕ) => L - ((i : ℚ) + 1) * STUD_THICKNESS)
    ++ ((ocIndices L s).flatMap fun (i : ℕ) =>
        let baseLeft := (i : ℚ) * s - (soc : ℚ) * STUD_THICKNESS / 2
        if ((startCount : ℚ) - 1) * STUD_THICKNESS < baseLeft ∧
            baseLeft < L - (endCount : ℚ) * STUD_THICKNESS then
          (List.range soc).map fun (j : ℕ) => baseLeft + (j : ℚ) * STUD_THICKNESS
        else [])

/-- The deduplicated stud positions (`uniquePositions`, lines 162-168): round
    each raw position to hundredths, keep first occurrences. -/
def geomUniqueXs (d : WallDetails) : List ℚ :=
  jsSetList ((geomRawStudXs d.wallLength (startStudCountD d) (endStudCountD d)
    d.studsOnCenter d.studSpacing.val).map roundHundredths)

/-- `sortedUniqueXs` (line 170). -/
def sortedUniqueXs (d : WallDetails) : List ℚ :=
  List.insertionSort (· ≤ ·) (geomUniqueXs d)

/-- The common-stud emission loop (lines 173-179): one `stud` member per
    position whose center is not strictly inside an opening span. -/
def genStuds (sizeName : String) (studHeight tp depth : ℚ)
    (spans : List PositionedOpening) : Counters → List ℚ → List Member3D × Counters
  | σ, [] => ([], σ)
  | σ, x :: rest =>
    if insideSpan spans (x + STUD_THICKNESS / 2) then
      genStuds sizeName studHeight tp depth spans σ rest
    else
      let md := getMemberData σ sizeName studHeight "stud"
      let t := genStuds sizeName studHeight tp depth spans md.2 rest
      (⟨md.1.1, md.1.2, x, tp, 0, STUD_THICKNESS, studHeight, depth, .stud⟩ :: t.1, t.2)

/-- The indexed adjacent pairs `(i, xs[i], xs[i+1])` walked by the blocking
    loop (lines 183-185). -/
def gapPairs (xs : List ℚ) : List (ℕ × ℚ × ℚ) := (xs.zip xs.tail).enum

/-- The blocking loop body (lines 183-213): for a pair with `gap > 3` whose
    midpoint is outside every opening span, emit one block per row, staggered
    `±1.5` by the parity of the pair index. -/
def genBlocking (sizeName : String) (wallHeight depth : ℚ) (rows : ℕ)
    (spans : List PositionedOpening) :
    Counters → List (ℕ × ℚ × ℚ) → List Member3D × Counters
  | σ, [] => ([], σ)
  | σ, (i, a, b) :: rest =>
    let currentEnd := a + STUD_THICKNESS
    let gap := b - currentEnd
    if 3 < gap ∧ insideSpan spans (currentEnd + gap / 2) = false then
      let blocks := stMap (fun σ' (r : ℕ) =>
        let baseHeight := wallHeight / ((rows : ℚ) + 1) * (r : ℚ)
        let staggerOffset : ℚ := if i % 2 = 0 then -1.5 else 1.5
        let md := getMemberData σ' sizeName gap "block"
        (⟨md.1.1, md.1.2, currentEnd, baseHeight + staggerOffset, 0, gap, 1.5, depth,
          .blocking⟩, md.2)) σ ((List.range rows).map (· + 1))
      let t := genBlocking sizeName wallHeight depth rows spans blocks.2 rest
      (blocks.1 ++ t.1, t.2)
    else genBlocking sizeName wallHeight depth rows spans σ rest

/-- Positions visited by the cripple loops: start at `⌈start / s⌉ * s`
    (computed by the caller) and step by `s` while `< stop`. -/
def crippleXs (first stop s : ℚ) : List ℚ :=
  (List.range (⌈(stop - first) / s⌉.toNat)).map fun (k : ℕ) => first + (k : ℚ) * s

/-- The per-opening generation body (lines 216-325): kings, jacks, header
    plies, cripples above, and for windows the sill and cripples below. -/
def genOpening (d : WallDetails) (studHeight tp bp depth : ℚ)
    (σ : Counters) (p : ℕ × PositionedOpening) : List Member3D × Counters :=
  let index := p.1
  let layout := p.2
  let op := layout.opening
  let openingId := op.id ++ "-" ++ toString index
  let frameStart := layout.xStart
  let headerH := headerHeights op.headerSize
  let leftKingStudsWidth := (op.kingStudsPerSide : ℚ) * STUD_THICKNESS
  let leftJackStudsWidth := (op.jackStudsPerSide : ℚ) * STUD_THICKNESS
  let hjc : ℚ × ℚ × ℚ :=
    match op.type with
    | .door =>
      let hy0 := d.wallHeight - bp - op.height - headerH
      if hy0 - tp < 0 then (tp, op.height, 0) else (hy0, op.height, hy0 - tp)
    | .window =>
      let ca := op.headerTopOffset.getD 0
      let hy := tp + ca
      let jh := (d.wallHeight - bp) - (hy + headerH)
      (hy, if jh < 0 then 0 else jh, ca)
  let headerYPos := hjc.1
  let jackHeight := hjc.2.1
  let crippleAboveHeight := hjc.2.2
  let kingsL := stMap (fun σ' (k : ℕ) =>
    let md := getMemberData σ' d.studSize.name studHeight "king"
    (⟨md.1.1, md.1.2, frameStart + (k : ℚ) * STUD_THICKNESS, tp, 0, STUD_THICKNESS,
      studHeight, depth, .kingJack⟩, md.2)) σ (List.range op.kingStudsPerSide)
  let jacksL := stMap (fun σ' (j : ℕ) =>
    let md := getMemberData σ' d.studSize.name jackHeight "jack"
    (⟨md.1.1, md.1.2, frameStart + leftKingStudsWidth + (j : ℚ) * STUD_THICKNESS,
      headerYPos + headerH, 0, STUD_THICKNESS, jackHeight, depth, .kingJack⟩, md.2))
    kingsL.2 (List.range op.jackStudsPerSide)
  let rightFrameStart := frameStart + leftKingStudsWidth + leftJackStudsWidth + op.width
  let jacksR := stMap (fun σ' (j : ℕ) =>
    let md := getMemberData σ' d.studSize.name jackHeight "jack"
    (⟨md.1.1, md.1.2, rightFrameStart + (j : ℚ) * STUD_THICKNESS,
      headerYPos + headerH, 0, STUD_THICKNESS, jackHeight, depth, .kingJack⟩, md.2))
    jacksL.2 (List.range op.jackStudsPerSide)
  let kingsR := stMap (fun σ' (k : ℕ) =>
    let md := getMemberData σ' d.studSize.name studHeight "king"
    (⟨md.1.1, md.1.2, rightFrameStart + leftJackStudsWidth + (k : ℚ) * STUD_THICKNESS,
      tp, 0, STUD_THICKNESS, studHeight, depth, .kingJack⟩, md.2))
    jacksR.2 (List.range op.kingStudsPerSide)
  let headerStartX := frameStart + leftKingStudsWidth
  let headerWidthInches := op.width + 2 * leftJackStudsWidth
  let headerName := op.headerSize.name ++ "x" ++ formatInchesForName headerWidthInches
    ++ " Header"
  let headerTotalDepth := (op.headerPly : ℚ) * 1.5 +
    (if 1 < op.headerPly then ((op.headerPly : ℚ) - 1) * 0.5 else 0)
  let headers : List Member3D := (List.range op.headerPly).map fun (ply : ℕ) =>
    ⟨"header-" ++ openingId ++ "-" ++ toString ply, headerName, headerStartX,
      headerYPos, -(headerTotalDepth / 2) + (ply : ℚ) * (1.5 + 0.5) + 1.5 / 2,
      headerWidthInches, headerH, 1.5, .header⟩
  let caFirst := (⌈headerStartX / d.studSpacing.val⌉ : ℚ) * d.studSpacing.val
  let caPositions := (crippleXs caFirst (headerStartX + headerWidthInches)
    d.studSpacing.val).filter fun cx => decide (headerStartX < cx)
  let cripplesAbove :=
    if 1.5 < crippleAboveHeight then
      stMap (fun σ' (cx : ℚ) =>
        let md := getMemberData σ' d.studSize.name crippleAboveHeight "cripple"
        (⟨md.1.1, md.1.2, cx - STUD_THICKNESS / 2, tp, 0, STUD_THICKNESS,
          crippleAboveHeight, depth, .cripple⟩, md.2)) kingsR.2 caPositions
    else (([] : List Member3D), kingsR.2)
  let windowPart : List Member3D × Counters :=
    match op.type with
    | .window =>
      let sillY := headerYPos + headerH + op.height
      let sillName := d.studSize.name ++ "x" ++ formatInchesForName headerWidthInches
        ++ " Sill Plate"
      let sill : Member3D := ⟨"sill-" ++ openingId, sillName, headerStartX, sillY, 0,
        headerWidthInches, PLATE_THICKNESS, depth, .sill⟩
      let cripplesBelowY := sillY + PLATE_THICKNESS
      let cripplesBelowHeight := d.wallHeight - cripplesBelowY - bp
      if 0 < cripplesBelowHeight then
        let cb := stMap (fun σ' (cx : ℚ) =>
          let md := getMemberData σ' d.studSize.name cripplesBelowHeight "cripple"
          (⟨md.1.1, md.1.2, cx - STUD_THICKNESS / 2, cripplesBelowY, 0, STUD_THICKNESS,
            cripplesBelowHeight, depth, .cripple⟩, md.2)) cripplesAbove.2 caPositions
        (sill :: cb.1, cb.2)
      else ([sill], cripplesAbove.2)
    | .door => ([], cripplesAbove.2)
  (kingsL.1 ++ jacksL.1 ++ jacksR.1 ++ kingsR.1 ++ headers ++ cripplesAbove.1
    ++ windowPart.1, windowPart.2)

/-- The sheathing tiling loops (lines 328-367): columns step by 48 regardless
    of clipping, rows step by the clipped height and therefore stop exactly at
    the wall height. -/
def sheathingMembers (d : WallDetails) (depth : ℚ) : List Member3D :=
  let L := d.wallLength
  let H := d.wallHeight
  let numY := (⌈H / 96⌉).toNat
  (List.range (⌈L / 48⌉).toNat).flatMap fun (k : ℕ) =>
    let x := (k : ℚ) * 48
    let width := if L < x + 48 then L - x else 48
    (List.range numY).map fun (j : ℕ) =>
      let y := (j : ℚ) * 96
      let height := if H < y + 96 then H - y else 96
      ⟨"sheathing-" ++ toString (k * numY + j + 1),
        "Sheathing " ++ ratToFixed1 width ++ "x" ++ ratToFixed1 height,
        x, y, depth, width, height, 0.5, .sheathing⟩

/-- Plates (lines 120-132): bottom plate (pressure-treated variant if set),
    then one or two top plates. -/
def platesSegment (d : WallDetails) : List Member3D × Counters :=
  let depth := studDepths d.studSize
  let bottomPlateType := if d.pressureTreatedBottomPlate then MemberType.ptPlate
    else MemberType.plate
  let bottomPlateTypeName := if d.pressureTreatedBottomPlate then "PT Plate" else "Plate"
  let bpData := getMemberData [] d.studSize.name d.wallLength bottomPlateTypeName
  let bottom : Member3D := ⟨"bottom-plate", bpData.1.2, 0,
    d.wallHeight - PLATE_THICKNESS, 0, d.wallLength, PLATE_THICKNESS, depth,
    bottomPlateType⟩
  let tpData := getMemberData bpData.2 d.studSize.name d.wallLength "Plate"
  if d.doubleTopPlate then
    ([bottom,
      ⟨"top-plate-1", tpData.1.2, 0, 0, 0, d.wallLength, PLATE_THICKNESS, depth, .plate⟩,
      ⟨"top-plate-2", tpData.1.2, 0, PLATE_THICKNESS, 0, d.wallLength, PLATE_THICKNESS,
        depth, .plate⟩], tpData.2)
  else
    ([bottom,
      ⟨"top-plate", tpData.1.2, 0, 0, 0, d.wallLength, topPlateHeightD d, depth,
        .plate⟩], tpData.2)

/-- `generateWallMembers` (geometryService.ts lines 102-369, first variant):
    plates, common studs, blocking, openings, sheathing, with the member-id
    counters initialized empty at each call and threaded through in source
    order. -/
def generateWallMembers (d : WallDetails) : List Member3D :=
  let depth := studDepths d.studSize
  let tp := topPlateHeightD d
  let layouts := calculateOpeningLayouts d.wallLength d.openings
  let xs := sortedUniqueXs d
  let plates := platesSegment d
  let studs := genStuds d.studSize.name (studHeightD d) tp depth layouts plates.2 xs
  let blocking :=
    if d.blockingRows = 0 then (([] : List Member3D), studs.2)
    else genBlocking d.studSize.name d.wallHeight depth d.blockingRows layouts studs.2
      (gapPairs xs)
  let openingPart := stFlatMap
    (genOpening d (studHeightD d) tp PLATE_THICKNESS depth) blocking.2 layouts.enum
  plates.1 ++ studs.1 ++ blocking.1 ++ openingPart.1
    ++ (if d.sheathing then sheathingMembers d depth else [])

/-! ## Stock Optimizer (part_004, `optimizeCuts`) -/
def DEFAULT_STOCK_LENGTHS : List ℚ := [192, 144, 120, 96]

structure StockBin : Type where
  length : ℚ
  remaining : ℚ
deriving DecidableEq, Repr

/-- `[...cuts].sort((a, b) => b - a)` — stable descending sort. -/
def sortDesc (l : List ℚ) : List ℚ := List.insertionSort (fun a b => b ≤ a) l

/-- The inner first-fit loop (part_004 lines 25-31): subtract the cut from the
    first open bin that still fits it; `none` when no open bin fits. -/
def placeInBins : List StockBin → ℚ → Option (List StockBin)
  | [], _ => none
  | b :: rest, cut =>
    if cut ≤ b.remaining then some ({ b with remaining := b.remaining - cut } :: rest)
    else (placeInBins rest cut).map (b :: ·)

/-- The new-bin loop (lines 33-39): walk `stockLengths.slice().reverse()` and
    open a bin at the first stock length that fits; `none` when none fits (the
    cut is then silently dropped). -/
def openBinSearch : List ℚ → ℚ → Option StockBin
  | [], _ => none
  | s :: rest, cut =>
    if cut ≤ s then some ⟨s, s - cut⟩ else openBinSearch rest cut

/-- One iteration of the outer `for (const cut of sortedCuts)` loop. -/
def stepCut (stockLengths : List ℚ) (bins : List StockBin) (cut : ℚ) : List StockBin :=
  match placeInBins bins cut with
  | some bins' => bins'
  | none =>
    match openBinSearch stockLengths.reverse cut with
    | some b => bins ++ [b]
    | none => bins

/-- The final `Map`-based tally (lines 43-48): count bins per stock length,
    keyed in first-encounter order. -/
def tallyBins (bins : List StockBin) : List (ℚ × ℕ) :=
  bins.foldl (fun acc b =>
    if (acc.lookup b.length).isSome then
      acc.map fun p => if p.1 = b.length then (p.1, p.2 + 1) else p
    else acc ++ [(b.length, 1)]) []

/-- `optimizeCuts` (part_004 lines 19-49). -/
def optimizeCuts (cuts stockLengths : List ℚ) : List (ℚ × ℕ) :=
  tallyBins ((sortDesc cuts).foldl (stepCut stockLengths) [])

/-- Instrumented copy of `StockBin` recording the cuts assigned to the bin,
    used to state assignment/capacity properties; projecting away `cuts`
    recovers the source algorithm exactly (`binsTrace_proj`). -/
structure StockBinT : Type where
  length : ℚ
  remaining : ℚ
  cuts : List ℚ
deriving DecidableEq, Repr

def StockBinT.proj (b : StockBinT) : StockBin := ⟨b.length, b.remaining⟩

def placeInBinsT : List StockBinT → ℚ → Option (List StockBinT)
  | [], _ => none
  | b :: rest, cut =>
    if cut ≤ b.remaining then
      some ({ b with remaining := b.remaining - cut, cuts := b.cuts ++ [cut] } :: rest)
    else (placeInBinsT rest cut).map (b :: ·)

def openBinSearchT : List ℚ → ℚ → Option StockBinT
  | [], _ => none
  | s :: rest, cut =>
    if cut ≤ s then some ⟨s, s - cut, [cut]⟩ else openBinSearchT rest cut

def stepCutT (stockLengths : List ℚ) (bins : List StockBinT) (cut : ℚ) :
    List StockBinT :=
  match placeInBinsT bins cut with
  | some bins' => bins'
  | none =>
    match openBinSearchT stockLengths.reverse cut with
    | some b => bins ++ [b]
    | none => bins

/-- The open bins at the end of an `optimizeCuts` run, with their assigned cuts. -/
def binsTrace (cuts stockLengths : List ℚ) : List StockBinT :=
  (sortDesc cuts).foldl (stepCutT stockLengths) []

/-- Number of cuts that ended up assigned to some bin. -/
def assignedCount (cuts stockLengths : List ℚ) : ℕ :=
  ((binsTrace cuts stockLengths).map fun b => b.cuts.length).sum

/-! ## Cut Extractor (part_004, `calculateWallCuts` and `processRawCuts`) -/
/-- `isApprox` (part_004 line 17). -/
def isApprox (val target : ℚ) : Bool := |val - target| < 1/100

/-- `RawCuts` (part_004 lines 51-57); `otherCuts` is the insertion-ordered
    string-keyed record of description → lengths. -/
structure RawCuts : Type where
  studCuts : List (ℚ × String)
  blockingCuts : List (ℚ × String)
  otherCuts : List (String × List ℚ)
  precut92 : ℕ × String
  precut104 : ℕ × String
deriving DecidableEq, Repr

/-- `addOtherCut` (part_004 lines 69-72): push onto the record entry, creating
    it (in insertion order) if absent. -/
def addOtherCut (oc : List (String × List ℚ)) (desc : String) (len : ℚ) :
    List (String × List ℚ) :=
  if (oc.lookup desc).isSome then
    oc.map fun p => if p.1 = desc then (p.1, p.2 ++ [len]) else p
  else oc ++ [(desc, [len])]

/-- The rounded wall length `Math.round(details.wallLength)` used throughout
    `calculateWallCuts` (part_004 line 74) — note `generateWallMembers` does
    NOT round. -/
def cutsWallLength (d : WallDetails) : ℚ := ((jsRound d.wallLength : ℤ) : ℚ)

/-- The opening layouts as computed inside `calculateWallCuts` (line 96), from
    the ROUNDED wall length. -/
def cutsLayouts (d : WallDetails) : List PositionedOpening :=
  calculateOpeningLayouts (cutsWallLength d) d.openings

/-- The raw keys `Math.round(x * 100)` added to `studLayoutPositions`
    (part_004 lines 98-115), before `Set` deduplication. -/
def cutsRawStudKeys (L : ℚ) (startCount endCount soc : ℕ) (s : ℚ) : List ℤ :=
  ((List.range startCount).map fun (i : ℕ) => jsRound ((i : ℚ) * STUD_THICKNESS * 100))
    ++ ((List.range endCount).map fun (i : ℕ) =>
        jsRound ((L - ((i : ℚ) + 1) * STUD_THICKNESS) * 100))
    ++ ((ocIndices L s).flatMap fun (i : ℕ) =>
        let baseLeft := (i : ℚ) * s - (soc : ℚ) * STUD_THICKNESS / 2
        if ((startCount : ℚ) - 1) * STUD_THICKNESS < baseLeft ∧
            baseLeft < L - (endCount : ℚ) * STUD_THICKNESS then
          (List.range soc).map fun (j : ℕ) => jsRound ((baseLeft + (j : ℚ) * STUD_THICKNESS) * 100)
        else [])

/-- The deduplicated `studLayoutPositions` set, as an insertion-ordered list
    of hundredths. -/
def cutsStudKeySet (d : WallDetails) : List ℤ :=
  jsSetList (cutsRawStudKeys (cutsWallLength d) (startStudCountD d) (endStudCountD d)
    d.studsOnCenter d.studSpacing.val)

/-- `(doubleTopPlate ? 2 : 1) * PLATE_THICKNESS` (part_004 line 91). -/
def cutsTopPlateHeight (d : WallDetails) : ℚ :=
  (if d.doubleTopPlate then 2 else 1) * PLATE_THICKNESS

/-- `commonStudLength` (part_004 line 93). -/
def commonStudLength (d : WallDetails) : ℚ :=
  d.wallHeight - cutsTopPlateHeight d - PLATE_THICKNESS

/-- The Common Studs loop (part_004 lines 118-125): one `commonStudLength`
    entry per deduplicated position whose center is not strictly inside an
    opening span. -/
def cutsCommonStudLengths (d : WallDetails) : List ℚ :=
  ((cutsStudKeySet d).filter fun (z : ℤ) =>
    insideSpan (cutsLayouts d) ((z : ℚ) / 100 + STUD_THICKNESS / 2) = false).map
    fun _ => commonStudLength d

/-- The per-opening stud lengths (part_004 lines 147-182): king/jack full-length
    studs, then window cripples below or door cripples above. -/
def cutsOpeningStudLengths (d : WallDetails) : List ℚ :=
  (cutsLayouts d).flatMap fun layout =>
    let op := layout.opening
    let headerLength := op.width + (op.jackStudsPerSide : ℚ) * STUD_THICKNESS * 2
    let headerHeight := headerHeights op.headerSize
    List.replicate (op.kingStudsPerSide * 2 + op.jackStudsPerSide * 2)
      (commonStudLength d)
      ++ (match op.type with
        | .window =>
          let crippleBelowLength := d.wallHeight - cutsTopPlateHeight d
            - PLATE_THICKNESS - headerHeight - op.height - PLATE_THICKNESS
          if 0 < crippleBelowLength then
            List.replicate (⌊headerLength / d.studSpacing.val⌋.toNat) crippleBelowLength
          else []
        | .door =>
          let crippleAboveLength := (d.wallHeight - cutsTopPlateHeight d)
            - (op.height + headerHeight)
          if 0 < crippleAboveLength then
            if 1 < crippleAboveLength then
              List.replicate (⌊headerLength / d.studSpacing.val⌋.toNat) crippleAboveLength
            else []
          else [])

/-- `allStudLengths` as accumulated before classification (part_004 line 118,
    pushed to through line 182). -/
def allStudLengthsList (d : WallDetails) : List ℚ :=
  cutsCommonStudLengths d ++ cutsOpeningStudLengths d

/-- The classification loop (part_004 lines 193-197): tally `92.625`-approx
    lengths, then `104.625`-approx lengths, pass everything else through as
    stud cuts. Returns (precut92 count, precut104 count, stud cuts). -/
def classifyStuds (sizeName : String) : List ℚ → ℕ × ℕ × List (ℚ × String)
  | [] => (0, 0, [])
  | len :: rest =>
    let r := classifyStuds sizeName rest
    if isApprox len 92.625 then (r.1 + 1, r.2.1, r.2.2)
    else if isApprox len 104.625 then (r.1, r.2.1 + 1, r.2.2)
    else (r.1, r.2.1, (len, sizeName) :: r.2.2)

/-- The Blocking section of `calculateWallCuts` (part_004 lines 127-144): sort
    the deduplicated positions ascending, then for each adjacent pair with
    `gap > 3` and midpoint outside every opening span, push `blockingRows`
    cuts of the gap length. -/
def cutsBlockingCuts (d : WallDetails) : List (ℚ × String) :=
  if d.blockingRows = 0 then []
  else
    let xs := (List.insertionSort (· ≤ ·) (cutsStudKeySet d)).map fun (z : ℤ) => (z : ℚ) / 100
    (xs.zip xs.tail).flatMap fun ab =>
      let currentEnd := ab.1 + STUD_THICKNESS
      let gap := ab.2 - currentEnd
      if 3 < gap ∧ insideSpan (cutsLayouts d) (currentEnd + gap / 2) = false then
        List.replicate d.blockingRows (gap, d.studSize.name)
      else []

/-- The `otherCuts` record accumulated by `calculateWallCuts`: plates,
    sheathing area, then per opening the window sill, header plies and
    plywood spacer. -/
def cutsOtherCuts (d : WallDetails) : List (String × List ℚ) :=
  let L := cutsWallLength d
  let topPlateMaterial := d.studSize.name ++ " Plate"
  let bottomPlateMaterial :=
    if d.pressureTreatedBottomPlate then d.studSize.name ++ " PT Plate"
    else d.studSize.name ++ " Plate"
  let oc0 := (List.replicate (if d.doubleTopPlate then 2 else 1) ()).foldl
    (fun oc _ => addOtherCut oc topPlateMaterial L) []
  let oc1 := addOtherCut oc0 bottomPlateMaterial L
  let oc2 :=
    if d.sheathing then
      addOtherCut oc1 (d.sheathingType ++ " Sheet (4x8)") (L * d.wallHeight / 144)
    else oc1
  (cutsLayouts d).foldl (fun oc layout =>
    let op := layout.opening
    let headerLength := op.width + (op.jackStudsPerSide : ℚ) * STUD_THICKNESS * 2
    let headerHeight := headerHeights op.headerSize
    let ocA := match op.type with
      | .window => addOtherCut oc (d.studSize.name ++ " Plate") headerLength
      | .door => oc
    let ocB := (List.range op.headerPly).foldl
      (fun o _ => addOtherCut o (op.headerSize.name ++ " Header") headerLength) ocA
    if 1 < op.headerPly then
      addOtherCut ocB "1/2\" Plywood Spacer"
        (((op.headerPly : ℚ) - 1) * headerHeight * headerLength / 144)
    else ocB) oc2

/-- `calculateWallCuts` (part_004 lines 60-200). -/
def calculateWallCuts (d : WallDetails) : RawCuts :=
  let cls := classifyStuds d.studSize.name (allStudLengthsList d)
  { studCuts := cls.2.2
    blockingCuts := cutsBlockingCuts d
    otherCuts := cutsOtherCuts d
    precut92 := (cls.1, d.studSize.name)
    precut104 := (cls.2.1, d.studSize.name) }

/-- Pre-splitting in `processRawCuts` (lines 250-257): while the remainder
    exceeds 192 push a 192 piece; push any positive remainder. -/
def splitCut192 (c : ℚ) : List ℚ :=
  if h : 192 < c then 192 :: splitCut192 (c - 192)
  else if 0 < c then [c] else []
termination_by (⌈c / 192⌉).toNat
decreasing_by
  have h2 : (2 : ℤ) ≤ ⌈c / 192⌉ := by
    rw [Int.le_ceil_iff]
    push_cast
    nlinarith
  have heq : ⌈(c - 192) / 192⌉ = ⌈c / 192⌉ - 1 := by
    rw [sub_div, div_self (by norm_num : (192 : ℚ) ≠ 0), Int.ceil_sub_one]
  rw [heq]
  omega

/-- `Record<string, number[]>` grouping by the `size` field, in insertion
    order (processRawCuts lines 215-219 and 228-232). -/
def groupBySize (l : List (ℚ × String)) : List (String × List ℚ) :=
  l.foldl (fun acc c =>
    if (acc.lookup c.2).isSome then
      acc.map fun p => if p.1 = c.2 then (p.1, p.2 ++ [c.1]) else p
    else acc ++ [(c.2, [c.1])]) []

/-- `MaterialItem` (types.ts): `length` is a number or a precut label. -/
inductive LenVal : Type
  | num (q : ℚ)
  | str (s : String)
deriving DecidableEq, Repr

structure MaterialItem : Type where
  quantity : ℤ
  description : String
  length : LenVal
deriving DecidableEq, Repr

/-- `processRawCuts` (part_004 lines 203-274): precuts, stud bins, blocking
    bins, then the other materials (sheet goods by area; everything else
    pre-split at 192 and bin-packed, plates/headers against 192-only stock). -/
def processRawCuts (raw : RawCuts) : List MaterialItem :=
  let l0 : List MaterialItem :=
    (if 0 < raw.precut92.1 then
      [⟨raw.precut92.1, raw.precut92.2 ++ " Pre-cut Studs", .str "92 5/8\""⟩] else [])
    ++ (if 0 < raw.precut104.1 then
      [⟨raw.precut104.1, raw.precut104.2 ++ " Pre-cut Studs", .str "104 5/8\""⟩] else [])
  let l1 := (groupBySize raw.studCuts).flatMap fun sc =>
    (optimizeCuts (sc.2.map fun c => ((jsRound (c * 1000) : ℤ) : ℚ) / 1000)
      DEFAULT_STOCK_LENGTHS).map fun bc =>
      ⟨(bc.2 : ℤ), sc.1 ++ " Stud", .num bc.1⟩
  let l2 := (groupBySize raw.blockingCuts).flatMap fun sc =>
    (optimizeCuts (sc.2.map fun c => ((jsRound (c * 1000) : ℤ) : ℚ) / 1000)
      [192]).map fun bc =>
      ⟨(bc.2 : ℤ), sc.1 ++ " Blocking", .num bc.1⟩
  let l3 := raw.otherCuts.flatMap fun oc =>
    if jsIncludes oc.1 "Plywood" || jsIncludes oc.1 "Sheet (4x8)" then
      let totalSqFt := oc.2.sum
      if 0 < totalSqFt then [⟨⌈totalSqFt / 32⌉, oc.1, .num 0⟩] else []
    else
      let processedCuts := oc.2.flatMap splitCut192
      if processedCuts.isEmpty then []
      else
        let stockLengthsToUse :=
          if jsIncludes oc.1 "Plate" || jsIncludes oc.1 "Header" then [(192 : ℚ)]
          else DEFAULT_STOCK_LENGTHS
        (optimizeCuts processedCuts stockLengthsToUse).map fun bc =>
          ⟨(bc.2 : ℤ), oc.1, .num bc.1⟩
  l0 ++ l1 ++ l2 ++ l3

def binInv (b : StockBinT) : Prop :=
  b.length = b.cuts.sum + b.remaining ∧ 0 ≤ b.remaining ∧ b.cuts ≠ []

def W3op : Opening := ⟨"o1", .window, 1, 20, 10, .h2x6, 2, 0, 0, none, none⟩

def W7op : Opening := ⟨"w7", .window, 1, 36, 48, .h2x6, 2, 1, 1, some 96, none⟩

def W5op : Opening := ⟨"d5", .door, 1, 32, 81, .h2x6, 2, 1, 1, some 48, none⟩

def W5 : WallDetails :=
  ⟨120, 97.125, .s2x4, .s16, 1, true, false, 0, 1, 1, false, "1/2\" OSB", [W5op]⟩

def W5layout : PositionedOpening := ⟨W5op, 0, 27, 69, 48, 42⟩

def W9 : WallDetails :=
  ⟨192, 97.125, .s2x4, .s16, 1, true, false, 1, 1, 1, true, "1/2\" OSB", [W7op]⟩

/-! ## Claim C6 -/
/-- Declarative description of the blocking emitted by `generateWallMembers`,
    as `(x, y, w, h)` tuples: one row-block per adjacent pair of deduplicated
    stud layout positions (pre-suppression) with clear gap over 3 inches and
    midpoint outside every opening span, staggered by the parity of the pair
    index over the FULL position list. -/
def blockingSpec (d : WallDetails) : List (ℚ × ℚ × ℚ × ℚ) :=
  (gapPairs (sortedUniqueXs d)).flatMap fun p =>
    let currentEnd := p.2.1 + STUD_THICKNESS
    let gap := p.2.2 - currentEnd
    if 3 < gap ∧ insideSpan (calculateOpeningLayouts d.wallLength d.openings)
        (currentEnd + gap / 2) = false then
      (List.range d.blockingRows).map fun (r : ℕ) =>
        (currentEnd,
         d.wallHeight / ((d.blockingRows : ℚ) + 1) * ((r : ℚ) + 1) +
           (if p.1 % 2 = 0 then (-1.5 : ℚ) else 1.5),
         gap, (1.5 : ℚ))
    else []

def W6op : Opening := ⟨"o6", .window, 1, 0.5, 10, .h2x6, 2, 0, 0, some 16, none⟩

def W6 : WallDetails :=
  ⟨200, 96, .s2x4, .s16, 1, false, false, 1, 1, 1, false, "1/2\" OSB", [W6op]⟩

/-! ## Claim C1 -/
def intHundredthsToQ (z : ℤ) : ℚ := (z : ℚ) / 100

def W1 : WallDetails :=
  ⟨100.5, 96, .s2x4, .s16, 1, false, false, 0, 1, 1, false, "1/2\" OSB", []⟩

/-! ## Theorems -/

theorem mem_jsSetList {α : Type} [DecidableEq α] (l : List α) (a : α) :
    a ∈ jsSetList l ↔ a ∈ l := by
  induction l using jsSetList.induct with
  | case1 => simp [jsSetList]
  | case2 b l ih =>
    rw [jsSetList]
    by_cases hab : a = b
    · subst hab; simp
    · simp only [List.mem_cons, hab, false_or, ih, List.mem_filter]
      constructor
      · exact fun h => h.1
      · exact fun h => ⟨h, by simpa using hab⟩

theorem nodup_jsSetList {α : Type} [DecidableEq α] (l : List α) :
    (jsSetList l).Nodup := by
  induction l using jsSetList.induct with
  | case1 => simp [jsSetList]
  | case2 b l ih =>
    rw [jsSetList]
    refine List.nodup_cons.mpr ⟨fun hmem => ?_, ih⟩
    rw [mem_jsSetList] at hmem
    have := (List.mem_filter.mp hmem).2
    simp at this

theorem jsSetList_map {α β : Type} [DecidableEq α] [DecidableEq β]
    {f : α → β} (hf : Function.Injective f) (l : List α) :
    jsSetList (l.map f) = (jsSetList l).map f := by
  induction l using jsSetList.induct with
  | case1 => simp [jsSetList]
  | case2 a l ih =>
    rw [List.map_cons, jsSetList, jsSetList]
    have hfilter : (l.map f).filter (· ≠ f a) = (l.filter (· ≠ a)).map f := by
      rw [List.filter_map]
      congr 1
      apply List.filter_congr
      intro x _
      simp only [Function.comp_apply, ne_eq, decide_not]
      congr 1
      exact decide_eq_decide.mpr ⟨fun h => hf h, fun h => h ▸ rfl⟩
    rw [hfilter, ih, List.map_cons]

theorem stMap_length {σ α β : Type} (f : σ → α → β × σ) (s : σ) (l : List α) :
    (stMap f s l).1.length = l.length := by
  induction l generalizing s with
  | nil => rfl
  | cons a l ih => simp [stMap, ih]

theorem stMap_mem {σ α β : Type} {f : σ → α → β × σ} {s : σ} {l : List α} {b : β}
    (h : b ∈ (stMap f s l).1) : ∃ s' a, a ∈ l ∧ b = (f s' a).1 := by
  induction l generalizing s with
  | nil => simp [stMap] at h
  | cons a l ih =>
    simp only [stMap, List.mem_cons] at h
    rcases h with h | h
    · exact ⟨s, a, List.mem_cons_self a l, h⟩
    · obtain ⟨s', a', ha', hb⟩ := ih h
      exact ⟨s', a', List.mem_cons_of_mem _ ha', hb⟩

theorem stMap_map_proj {σ α β γ : Type} (f : σ → α → β × σ) (proj : β → γ)
    (g : α → γ) (hfg : ∀ s a, proj (f s a).1 = g a) (s : σ) (l : List α) :
    (stMap f s l).1.map proj = l.map g := by
  induction l generalizing s with
  | nil => rfl
  | cons a l ih => simp [stMap, hfg, ih]

theorem stFlatMap_mem {σ α β : Type} {f : σ → α → List β × σ} {s : σ}
    {l : List α} {b : β} (h : b ∈ (stFlatMap f s l).1) :
    ∃ s' a, a ∈ l ∧ b ∈ (f s' a).1 := by
  induction l generalizing s with
  | nil => simp [stFlatMap] at h
  | cons a l ih =>
    simp only [stFlatMap, List.mem_append] at h
    rcases h with h | h
    · exact ⟨s, a, List.mem_cons_self a l, h⟩
    · obtain ⟨s', a', ha', hb⟩ := ih h
      exact ⟨s', a', List.mem_cons_of_mem _ ha', hb⟩

theorem StudSpacing.val_pos (s : StudSpacing) : 0 < s.val := by
  cases s <;> norm_num [StudSpacing.val]

theorem placeInBinsT_proj (bins : List StockBinT) (cut : ℚ) :
    (placeInBinsT bins cut).map (List.map StockBinT.proj) =
      placeInBins (bins.map StockBinT.proj) cut := by
  induction bins with
  | nil => rfl
  | cons b rest ih =>
    simp only [placeInBinsT, placeInBins, List.map_cons, StockBinT.proj]
    by_cases h : cut ≤ b.remaining
    · simp [h, StockBinT.proj]
    · simp only [h, if_false, ← ih, Option.map_map]
      rfl

theorem openBinSearchT_proj (sl : List ℚ) (cut : ℚ) :
    (openBinSearchT sl cut).map StockBinT.proj = openBinSearch sl cut := by
  induction sl with
  | nil => rfl
  | cons s rest ih =>
    simp only [openBinSearchT, openBinSearch]
    by_cases h : cut ≤ s
    · simp [h, StockBinT.proj]
    · simp [h, ih]

theorem stepCutT_proj (stockLengths : List ℚ) (bins : List StockBinT) (cut : ℚ) :
    (stepCutT stockLengths bins cut).map StockBinT.proj =
      stepCut stockLengths (bins.map StockBinT.proj) cut := by
  simp only [stepCutT, stepCut, ← placeInBinsT_proj, ← openBinSearchT_proj]
  cases h : placeInBinsT bins cut with
  | some bins' => simp
  | none =>
    simp only [Option.map_none]
    cases h2 : openBinSearchT stockLengths.reverse cut with
    | some b => simp
    | none => simp

/-- The instrumented run projects onto the source algorithm's bins. -/
theorem binsTrace_proj (cuts stockLengths : List ℚ) :
    (binsTrace cuts stockLengths).map StockBinT.proj =
      (sortDesc cuts).foldl (stepCut stockLengths) [] := by
  unfold binsTrace
  generalize sortDesc cuts = l
  suffices h : ∀ (bins : List StockBinT),
      (l.foldl (stepCutT stockLengths) bins).map StockBinT.proj =
        l.foldl (stepCut stockLengths) (bins.map StockBinT.proj) by
    simpa using h []
  induction l with
  | nil => intro bins; rfl
  | cons c l ih =>
    intro bins
    simp only [List.foldl_cons, ih, stepCutT_proj]

/-! ## Optimizer lemmas -/
theorem placeInBins_none {bins : List StockBin} {cut : ℚ}
    (h : ∀ x ∈ bins, ¬ cut ≤ x.remaining) : placeInBins bins cut = none := by
  induction bins with
  | nil => rfl
  | cons b rest ih =>
    rw [placeInBins]
    rw [if_neg (h b (List.mem_cons_self b rest)),
      ih fun x hx => h x (List.mem_cons_of_mem _ hx)]
    rfl

theorem placeInBins_firstFit (pre : List StockBin) (b : StockBin)
    (post : List StockBin) (cut : ℚ) (hpre : ∀ x ∈ pre, ¬ cut ≤ x.remaining)
    (hb : cut ≤ b.remaining) :
    placeInBins (pre ++ b :: post) cut =
      some (pre ++ { b with remaining := b.remaining - cut } :: post) := by
  induction pre with
  | nil => simp [placeInBins, hb]
  | cons x xs ih =>
    rw [List.cons_append, placeInBins,
      if_neg (hpre x (List.mem_cons_self x xs)),
      ih fun y hy => hpre y (List.mem_cons_of_mem _ hy)]
    rfl

theorem openBinSearch_asc (sl : List ℚ) (cut : ℚ) (hsort : sl.Sorted (· ≤ ·))
    (hex : ∃ s ∈ sl, cut ≤ s) :
    ∃ s, openBinSearch sl cut = some ⟨s, s - cut⟩ ∧ cut ≤ s ∧
      ∀ t ∈ sl, cut ≤ t → s ≤ t := by
  induction sl with
  | nil => simp at hex
  | cons s rest ih =>
    by_cases h : cut ≤ s
    · refine ⟨s, by simp [openBinSearch, h], h, fun t ht _ => ?_⟩
      rcases List.mem_cons.mp ht with rfl | ht
      · exact le_refl t
      · exact (List.sorted_cons.mp hsort).1 t ht
    · have hex' : ∃ x ∈ rest, cut ≤ x := by
        obtain ⟨x, hx, hcx⟩ := hex
        rcases List.mem_cons.mp hx with rfl | hx
        · exact absurd hcx h
        · exact ⟨x, hx, hcx⟩
      obtain ⟨s', hs', hcs', hmin⟩ := ih (List.sorted_cons.mp hsort).2 hex'
      refine ⟨s', by simp [openBinSearch, h, hs'], hcs', fun t ht hct => ?_⟩
      rcases List.mem_cons.mp ht with rfl | ht
      · exact absurd hct h
      · exact hmin t ht hct

theorem sumCutsLens_placeInBinsT {bins bins' : List StockBinT} {cut : ℚ}
    (h : placeInBinsT bins cut = some bins') :
    (bins'.map fun b => b.cuts.length).sum = (bins.map fun b => b.cuts.length).sum + 1 := by
  induction bins generalizing bins' with
  | nil => simp [placeInBinsT] at h
  | cons b rest ih =>
    rw [placeInBinsT] at h
    by_cases hfit : cut ≤ b.remaining
    · rw [if_pos hfit] at h
      cases h
      simp only [List.map_cons, List.sum_cons, List.length_append, List.length_cons,
        List.length_nil]
      omega
    · rw [if_neg hfit] at h
      cases hrec : placeInBinsT rest cut with
      | none => rw [hrec] at h; simp at h
      | some tail' =>
        rw [hrec, Option.map_some'] at h
        cases h
        simp only [List.map_cons, List.sum_cons, ih hrec]
        omega

theorem openBinSearchT_some {sl : List ℚ} {cut : ℚ} {b : StockBinT}
    (h : openBinSearchT sl cut = some b) :
    ∃ s ∈ sl, cut ≤ s ∧ b = ⟨s, s - cut, [cut]⟩ := by
  induction sl with
  | nil => simp [openBinSearchT] at h
  | cons s rest ih =>
    rw [openBinSearchT] at h
    by_cases hfit : cut ≤ s
    · rw [if_pos hfit] at h
      cases h
      exact ⟨s, List.mem_cons_self s rest, hfit, rfl⟩
    · rw [if_neg hfit] at h
      obtain ⟨s', hs', hc, hb⟩ := ih h
      exact ⟨s', List.mem_cons_of_mem _ hs', hc, hb⟩

theorem openBinSearchT_isSome {sl : List ℚ} {cut : ℚ} (hex : ∃ s ∈ sl, cut ≤ s) :
    ∃ b, openBinSearchT sl cut = some b := by
  induction sl with
  | nil => simp at hex
  | cons s rest ih =>
    rw [openBinSearchT]
    by_cases hfit : cut ≤ s
    · exact ⟨_, by rw [if_pos hfit]⟩
    · obtain ⟨x, hx, hcx⟩ := hex
      rcases List.mem_cons.mp hx with rfl | hx
      · exact absurd hcx hfit
      · rw [if_neg hfit]
        exact ih ⟨x, hx, hcx⟩

theorem sumCutsLens_stepCutT (stock : List ℚ) (bins : List StockBinT) (cut : ℚ)
    (hex : ∃ s ∈ stock, cut ≤ s) :
    ((stepCutT stock bins cut).map fun b => b.cuts.length).sum =
      ((bins.map fun b => b.cuts.length)).sum + 1 := by
  rw [stepCutT]
  cases hplace : placeInBinsT bins cut with
  | some bins' => exact sumCutsLens_placeInBinsT hplace
  | none =>
    have hex' : ∃ s ∈ stock.reverse, cut ≤ s := by
      obtain ⟨s, hs, hc⟩ := hex
      exact ⟨s, List.mem_reverse.mpr hs, hc⟩
    obtain ⟨b, hb⟩ := openBinSearchT_isSome hex'
    rw [hb]
    obtain ⟨s, _, _, rfl⟩ := openBinSearchT_some hb
    simp

theorem sumCutsLens_foldl (stock : List ℚ) (l : List ℚ) (bins : List StockBinT)
    (hfit : ∀ c ∈ l, ∃ s ∈ stock, c ≤ s) :
    ((l.foldl (stepCutT stock) bins).map fun b => b.cuts.length).sum =
      (bins.map fun b => b.cuts.length).sum + l.length := by
  induction l generalizing bins with
  | nil => simp
  | cons c l ih =>
    rw [List.foldl_cons, ih _ fun x hx => hfit x (List.mem_cons_of_mem _ hx),
      sumCutsLens_stepCutT stock bins c (hfit c (List.mem_cons_self c l))]
    simp
    omega

theorem mem_sortDesc (l : List ℚ) (a : ℚ) : a ∈ sortDesc l ↔ a ∈ l :=
  (List.perm_insertionSort _ l).mem_iff

theorem length_sortDesc (l : List ℚ) : (sortDesc l).length = l.length :=
  (List.perm_insertionSort _ l).length_eq

theorem splitCut192_spec (c : ℚ) (hc : 0 < c) :
    (splitCut192 c).sum = c ∧ ∀ p ∈ splitCut192 c, 0 < p ∧ p ≤ 192 := by
  induction c using splitCut192.induct with
  | case1 c h ih =>
    rw [splitCut192, dif_pos h]
    have hc' : 0 < c - 192 := by linarith
    obtain ⟨hsum, hall⟩ := ih hc'
    constructor
    · simp [hsum]
    · intro p hp
      rcases List.mem_cons.mp hp with rfl | hp
      · norm_num
      · exact hall p hp
  | case2 c h h2 =>
    rw [splitCut192, dif_neg h, if_pos h2]
    refine ⟨by simp, fun p hp => ?_⟩
    rcases List.mem_cons.mp hp with rfl | hp
    · exact ⟨h2, by linarith [not_lt.mp h]⟩
    · simp at hp
  | case3 c h h2 => exact absurd hc h2

theorem tallyBins_pos (bins : List StockBin) : ∀ p ∈ tallyBins bins, 1 ≤ p.2 := by
  unfold tallyBins
  suffices h : ∀ acc : List (ℚ × ℕ), (∀ p ∈ acc, 1 ≤ p.2) →
      ∀ p ∈ bins.foldl (fun acc b =>
        if (acc.lookup b.length).isSome then
          acc.map fun p => if p.1 = b.length then (p.1, p.2 + 1) else p
        else acc ++ [(b.length, 1)]) acc, 1 ≤ p.2 by
    exact h [] (by simp)
  induction bins with
  | nil => intro acc hacc; simpa using hacc
  | cons b rest ih =>
    intro acc hacc
    rw [List.foldl_cons]
    apply ih
    intro p hp
    by_cases hs : (acc.lookup b.length).isSome
    · rw [if_pos hs] at hp
      obtain ⟨q, hq, hpq⟩ := List.mem_map.mp hp
      by_cases hqb : q.1 = b.length
      · rw [if_pos hqb] at hpq
        subst hpq
        simp
      · rw [if_neg hqb] at hpq
        subst hpq
        exact hacc q hq
    · rw [if_neg hs] at hp
      rcases List.mem_append.mp hp with hp | hp
      · exact hacc p hp
      · simp at hp
        subst hp
        simp

theorem placeInBinsT_inv {bins bins' : List StockBinT} {cut : ℚ}
    (h : placeInBinsT bins cut = some bins') (hb : ∀ b ∈ bins, binInv b) :
    ∀ b ∈ bins', binInv b := by
  induction bins generalizing bins' with
  | nil => simp [placeInBinsT] at h
  | cons b rest ih =>
    rw [placeInBinsT] at h
    by_cases hfit : cut ≤ b.remaining
    · rw [if_pos hfit] at h
      cases h
      intro x hx
      rcases List.mem_cons.mp hx with rfl | hx
      · obtain ⟨hlen, hrem, _⟩ := hb b (List.mem_cons_self b rest)
        refine ⟨?_, by simpa using hfit, by simp⟩
        simp only [List.sum_append, List.sum_cons, List.sum_nil]
        linarith
      · exact hb x (List.mem_cons_of_mem _ hx)
    · rw [if_neg hfit] at h
      cases hrec : placeInBinsT rest cut with
      | none => rw [hrec] at h; simp at h
      | some tail' =>
        rw [hrec, Option.map_some'] at h
        cases h
        intro x hx
        rcases List.mem_cons.mp hx with rfl | hx
        · exact hb x (List.mem_cons_self x rest)
        · exact ih hrec (fun y hy => hb y (List.mem_cons_of_mem _ hy)) x hx

theorem stepCutT_inv (stock : List ℚ) (bins : List StockBinT) (cut : ℚ)
    (hb : ∀ b ∈ bins, binInv b) : ∀ b ∈ stepCutT stock bins cut, binInv b := by
  rw [stepCutT]
  cases hplace : placeInBinsT bins cut with
  | some bins' => exact placeInBinsT_inv hplace hb
  | none =>
    cases hopen : openBinSearchT stock.reverse cut with
    | none => exact hb
    | some b0 =>
      intro x hx
      rcases List.mem_append.mp hx with hx | hx
      · exact hb x hx
      · simp at hx
        subst hx
        obtain ⟨s, _, hc, rfl⟩ := openBinSearchT_some hopen
        exact ⟨by simp, by simpa using hc, by simp⟩

theorem binsTrace_inv (cuts stock : List ℚ) : ∀ b ∈ binsTrace cuts stock, binInv b := by
  unfold binsTrace
  generalize sortDesc cuts = l
  suffices h : ∀ bins : List StockBinT, (∀ b ∈ bins, binInv b) →
      ∀ b ∈ l.foldl (stepCutT stock) bins, binInv b by
    exact h [] (by simp)
  induction l with
  | nil => intro bins hb; simpa using hb
  | cons c l ih =>
    intro bins hb
    rw [List.foldl_cons]
    exact ih _ (stepCutT_inv stock bins c hb)

/-! ## Classification lemmas -/
theorem isApprox_92_not_104 {l : ℚ} (h : isApprox l 92.625 = true) :
    isApprox l 104.625 = false := by
  simp only [isApprox, decide_eq_true_eq] at h
  simp only [isApprox, decide_eq_false_iff_not, not_lt]
  rw [abs_lt] at h
  rw [le_abs]
  right
  linarith

theorem classifyStuds_spec (s : String) (lens : List ℚ) :
    classifyStuds s lens =
      (lens.countP (fun l => isApprox l 92.625),
       lens.countP (fun l => isApprox l 104.625),
       (lens.filter fun l => !(isApprox l 92.625) && !(isApprox l 104.625)).map
         fun l => (l, s)) := by
  induction lens with
  | nil => rfl
  | cons len rest ih =>
    rw [classifyStuds, ih]
    by_cases h92 : isApprox len 92.625 = true
    · have h104 := isApprox_92_not_104 h92
      simp [h92, h104, List.countP_cons, List.filter_cons]
    · have h92' := eq_false_of_ne_true h92
      by_cases h104 : isApprox len 104.625 = true
      · simp [h92', h104, List.countP_cons, List.filter_cons]
      · have h104' := eq_false_of_ne_true h104
        simp [h92', h104', List.countP_cons, List.filter_cons]

/-! ## Claim C4 -/
/-- C4: `optimizeCuts [96, 96, 48]` against stock `[192]` yields exactly one
    entry `(192, 2)`; in general a cut is placed into the earliest-opened bin
    whose remaining capacity admits it (first-fit), and otherwise (for a
    descending stock list, as all call sites use) a new bin is opened with the
    smallest stock length that fits the cut; cuts are processed in descending
    order (`sortDesc` is a descending permutation of the input). -/
theorem C4_optimizer :
    optimizeCuts [96, 96, 48] [192] = [(192, 2)]
    ∧ (∀ (stock : List ℚ) (pre : List StockBin) (b : StockBin) (post : List StockBin)
        (cut : ℚ), (∀ x ∈ pre, ¬ cut ≤ x.remaining) → cut ≤ b.remaining →
        stepCut stock (pre ++ b :: post) cut =
          pre ++ { b with remaining := b.remaining - cut } :: post)
    ∧ (∀ (stock : List ℚ) (bins : List StockBin) (cut : ℚ),
        stock.Sorted (fun a b => b ≤ a) → (∀ x ∈ bins, ¬ cut ≤ x.remaining) →
        (∃ s ∈ stock, cut ≤ s) →
        ∃ s, stepCut stock bins cut = bins ++ [⟨s, s - cut⟩] ∧ cut ≤ s ∧
          ∀ t ∈ stock, cut ≤ t → s ≤ t)
    ∧ (∀ cuts : List ℚ,
        (sortDesc cuts).Sorted (fun a b : ℚ => b ≤ a) ∧ (sortDesc cuts).Perm cuts) := by
  refine ⟨?_, ?_, ?_, ?_⟩
  · norm_num [optimizeCuts, sortDesc, List.insertionSort, List.orderedInsert,
      stepCut, placeInBins, openBinSearch, tallyBins, List.foldl, List.reverse,
      List.reverseAux, List.lookup]
  · intro stock pre b post cut hpre hb
    rw [stepCut, placeInBins_firstFit pre b post cut hpre hb]
  · intro stock bins cut hsort hnone hex
    rw [stepCut, placeInBins_none hnone]
    have hrev : stock.reverse.Sorted (· ≤ ·) := by
      rw [List.Sorted, List.pairwise_reverse]
      exact hsort
    have hex' : ∃ s ∈ stock.reverse, cut ≤ s := by
      obtain ⟨s, hs, hc⟩ := hex
      exact ⟨s, List.mem_reverse.mpr hs, hc⟩
    obtain ⟨s, hfind, hc, hmin⟩ := openBinSearch_asc stock.reverse cut hrev hex'
    refine ⟨s, ?_, hc, fun t ht hct => hmin t (List.mem_reverse.mpr ht) hct⟩
    rw [hfind]
  · intro cuts
    letI : IsTotal ℚ fun a b => b ≤ a := ⟨fun a b => le_total b a⟩
    letI : IsTrans ℚ fun a b => b ≤ a := ⟨fun a b c h1 h2 => le_trans h2 h1⟩
    exact ⟨List.sorted_insertionSort _ cuts, List.perm_insertionSort _ cuts⟩

/-- Witness for C4: the first-fit step applied at a concrete bin list, the
    smallest-fitting new bin at the default stock lengths, and the sortedness
    part at a concrete cut list. -/
theorem C4_witness :
    stepCut [(192 : ℚ)] [⟨192, 50⟩, ⟨192, 100⟩] 96 = [⟨192, 50⟩, ⟨192, 4⟩]
    ∧ (∃ s, stepCut DEFAULT_STOCK_LENGTHS [] 100 = [(⟨s, s - 100⟩ : StockBin)] ∧
        (100 : ℚ) ≤ s ∧ ∀ t ∈ DEFAULT_STOCK_LENGTHS, 100 ≤ t → s ≤ t)
    ∧ (sortDesc [96, 96, 48]).Sorted (fun a b : ℚ => b ≤ a) := by
  refine ⟨?_, ?_, (C4_optimizer.2.2.2 [96, 96, 48]).1⟩
  · have h := C4_optimizer.2.1 [(192 : ℚ)] [⟨192, 50⟩] ⟨192, 100⟩ [] 96
      (by intro x hx; simp at hx; subst hx; norm_num) (by norm_num)
    have h2 : ({ length := 192, remaining := 100 } : StockBin).remaining - 96 = 4 := by
      norm_num
    simpa [h2] using h
  · have h := C4_optimizer.2.2.1 DEFAULT_STOCK_LENGTHS [] 100
      (by norm_num [DEFAULT_STOCK_LENGTHS, List.Sorted])
      (by simp)
      (⟨192, by norm_num [DEFAULT_STOCK_LENGTHS], by norm_num⟩)
    simpa using h

/-! ## Claim C10 -/
/-- C10: every bin produced by `optimizeCuts` respects its capacity (the cuts
    assigned to it sum to at most its stock length, equivalently remaining
    capacity stays non-negative), every opened bin holds at least one cut, and
    every reported `(length, count)` pair has `count ≥ 1`. -/
theorem C10_bin_invariants (cuts stock : List ℚ) :
    (∀ b ∈ binsTrace cuts stock,
      b.cuts.sum ≤ b.length ∧ 0 ≤ b.remaining ∧ b.cuts ≠ [])
    ∧ ∀ p ∈ optimizeCuts cuts stock, 1 ≤ p.2 := by
  constructor
  · intro b hb
    obtain ⟨hlen, hrem, hne⟩ := binsTrace_inv cuts stock b hb
    exact ⟨by linarith, hrem, hne⟩
  · intro p hp
    rw [optimizeCuts] at hp
    exact tallyBins_pos _ p hp

/-- Witness for C10 at the run on cuts `[96]`, stock `[192]`. -/
theorem C10_witness :
    binsTrace [96] [192] = [⟨192, 96, [96]⟩]
    ∧ ((⟨192, 96, [96]⟩ : StockBinT).cuts.sum ≤ (⟨192, 96, [96]⟩ : StockBinT).length
        ∧ (0 : ℚ) ≤ (⟨192, 96, [96]⟩ : StockBinT).remaining
        ∧ (⟨192, 96, [96]⟩ : StockBinT).cuts ≠ [])
    ∧ 1 ≤ ((192 : ℚ), 1).2 := by
  have htrace : binsTrace [96] [192] = [⟨192, 96, [96]⟩] := by
    norm_num [binsTrace, sortDesc, List.insertionSort, List.orderedInsert,
      stepCutT, placeInBinsT, openBinSearchT, List.foldl, List.reverse,
      List.reverseAux]
  have hopt : optimizeCuts [96] [192] = [(192, 1)] := by
    norm_num [optimizeCuts, sortDesc, List.insertionSort, List.orderedInsert,
      stepCut, placeInBins, openBinSearch, tallyBins, List.foldl, List.reverse,
      List.reverseAux, List.lookup]
  refine ⟨htrace, (C10_bin_invariants [96] [192]).1 _ ?_, ?_⟩
  · rw [htrace]; exact List.mem_singleton.mpr rfl
  · exact (C10_bin_invariants [96] [192]).2 (192, 1) (by rw [hopt]; simp)

/-! ## Claim C2 -/
/-- C2 (amended): in `optimizeCuts`, every cut that is no larger than SOME
    available stock length is assigned to a purchased bin (when no open bin
    fits it, a new bin is opened); and the 192-inch pre-split produces pieces
    that are positive, at most 192, and sum to the original cut. The original
    claim's fallback-to-largest and universal pre-splitting do not exist in
    the code: a cut exceeding every stock length is silently dropped, and
    stud/blocking cuts are never pre-split (see `C2_counterexample`). -/
theorem C2_no_cut_lost :
    (∀ cuts stock : List ℚ, (∀ c ∈ cuts, ∃ s ∈ stock, c ≤ s) →
      assignedCount cuts stock = cuts.length)
    ∧ (∀ c : ℚ, 0 < c →
      (splitCut192 c).sum = c ∧ ∀ p ∈ splitCut192 c, 0 < p ∧ p ≤ 192) := by
  constructor
  · intro cuts stock hfit
    rw [assignedCount, binsTrace,
      sumCutsLens_foldl stock (sortDesc cuts) []
        (fun c hc => hfit c ((mem_sortDesc cuts c).mp hc))]
    simp [length_sortDesc]
  · exact fun c hc => splitCut192_spec c hc

/-- Witness for C2: all three cuts of `[96, 96, 48]` are assigned against
    stock `[192]`, and the pre-split of a 200-inch cut. -/
theorem C2_witness :
    assignedCount [96, 96, 48] [192] = 3
    ∧ (splitCut192 200).sum = 200
    ∧ ∀ p ∈ splitCut192 200, 0 < p ∧ p ≤ 192 := by
  have hfit : ∀ c ∈ [(96 : ℚ), 96, 48], ∃ s ∈ [(192 : ℚ)], c ≤ s := by
    intro c hc
    refine ⟨192, List.mem_singleton.mpr rfl, ?_⟩
    simp only [List.mem_cons, List.not_mem_nil, or_false] at hc
    rcases hc with rfl | rfl | rfl <;> norm_num
  refine ⟨?_, (C2_no_cut_lost.2 200 (by norm_num)).1,
    (C2_no_cut_lost.2 200 (by norm_num)).2⟩
  have h := C2_no_cut_lost.1 [96, 96, 48] [192] hfit
  simpa using h

/-- Counterexample to C2 as stated: a 200-inch stud cut exceeds every default
    stock length; it is not pre-split (pre-splitting only happens for the
    plate/header/sheet category) and `optimizeCuts` opens no bin for it, so
    the cut vanishes: zero bins are purchased and the resulting material list
    is empty. -/
theorem C2_counterexample :
    optimizeCuts [200] DEFAULT_STOCK_LENGTHS = []
    ∧ assignedCount [200] DEFAULT_STOCK_LENGTHS = 0
    ∧ processRawCuts ⟨[(200, "2x4")], [], [], (0, "2x4"), (0, "2x4")⟩ = [] := by
  have hopt : ∀ st : List ℚ, st = DEFAULT_STOCK_LENGTHS →
      optimizeCuts [200] st = [] := by
    intro st hst
    subst hst
    norm_num [optimizeCuts, DEFAULT_STOCK_LENGTHS, sortDesc, List.insertionSort,
      List.orderedInsert, stepCut, placeInBins, openBinSearch, tallyBins,
      List.foldl, List.reverse, List.reverseAux]
  refine ⟨hopt _ rfl, ?_, ?_⟩
  · norm_num [assignedCount, binsTrace, DEFAULT_STOCK_LENGTHS, sortDesc,
      List.insertionSort, List.orderedInsert, stepCutT, placeInBinsT,
      openBinSearchT, List.foldl, List.reverse, List.reverseAux]
  · have h200 : ((jsRound (200000 : ℚ) : ℤ) : ℚ) / 1000 = 200 := by
      norm_num [jsRound]
    have hopt' := hopt _ rfl
    norm_num [processRawCuts, groupBySize, List.foldl, List.lookup, h200, hopt']

/-! ## Claim C8 -/
/-- C8: in `calculateWallCuts`, every computed stud length within 0.01 of
    92.625 (resp. 104.625) increments the corresponding precut counter, and
    exactly the lengths approximating neither become stud cuts passed to the
    optimizer. -/
theorem C8_precut_classification (d : WallDetails) :
    (calculateWallCuts d).precut92.1 =
      (allStudLengthsList d).countP (fun l => isApprox l 92.625)
    ∧ (calculateWallCuts d).precut104.1 =
      (allStudLengthsList d).countP (fun l => isApprox l 104.625)
    ∧ (calculateWallCuts d).studCuts =
      ((allStudLengthsList d).filter fun l =>
        !(isApprox l 92.625) && !(isApprox l 104.625)).map
        fun l => (l, d.studSize.name) := by
  unfold calculateWallCuts
  rw [classifyStuds_spec]
  exact ⟨rfl, rfl, rfl⟩

/-! ## Claim C3 -/
theorem autoFlow_length (spacing : ℚ) (cx : ℚ) (idx : ℕ) (autos : List Opening) :
    (autoFlow spacing cx idx autos).length = autos.length := by
  induction autos generalizing cx idx with
  | nil => rfl
  | cons a rest ih => simp [autoFlow, ih]

theorem autoFlow_getD (spacing : ℚ) (autos : List Opening) (cx : ℚ) (idx : ℕ)
    (k : ℕ) (hk : k < autos.length) (d0 : PositionedOpening) :
    ((autoFlow spacing cx idx autos).getD k d0).xStart =
      cx + k * spacing + ((autos.take k).map openingFrameWidth).sum := by
  induction autos generalizing cx idx k with
  | nil => simp at hk
  | cons a rest ih =>
    cases k with
    | zero => simp [autoFlow]
    | succ k =>
      have hk' : k < rest.length := by simpa using hk
      simp only [autoFlow, List.getD_cons_succ, List.take_succ_cons, List.map_cons,
        List.sum_cons, ih _ _ k hk']
      push_cast
      ring

/-- C3 (amended): the resolver does NOT clamp the spacing: it is exactly
    `(wallLength - totalAutoWidth) / (autoCount + 1)`, possibly negative; the
    k-th auto instance starts at `spacing*(k+1)` plus the frame widths of the
    previous instances (so the first starts at `spacing`, which is negative on
    an over-subscribed wall); and over-subscribed walls are never rejected —
    the resolver always returns one placement per auto instance plus the
    manual ones. -/
theorem C3_auto_layout (L : ℚ) (ops : List Opening)
    (hne : autoInstances (activeOpenings ops) ≠ []) :
    autoSpacing L ops =
      (L - ((autoInstances (activeOpenings ops)).map openingFrameWidth).sum) /
        ((autoInstances (activeOpenings ops)).length + 1)
    ∧ (calculateOpeningLayouts L ops).length =
        (autoInstances (activeOpenings ops)).length +
          (manualLayouts (activeOpenings ops)).length
    ∧ ∀ k, k < (autoInstances (activeOpenings ops)).length →
        ∀ d0 : PositionedOpening,
        ((calculateOpeningLayouts L ops).getD k d0).xStart =
          autoSpacing L ops * (k + 1) +
            (((autoInstances (activeOpenings ops)).take k).map openingFrameWidth).sum := by
  have hact : (activeOpenings ops).isEmpty = false := by
    cases hempty : (activeOpenings ops).isEmpty
    · rfl
    · exfalso
      apply hne
      rw [List.isEmpty_iff] at hempty
      rw [hempty]
      rfl
  have hautos : (autoInstances (activeOpenings ops)).isEmpty = false := by
    cases hempty : (autoInstances (activeOpenings ops)).isEmpty
    · rfl
    · exact absurd (List.isEmpty_iff.mp hempty) hne
  have hlayout : calculateOpeningLayouts L ops =
      autoFlow (autoSpacing L ops) (autoSpacing L ops) 0
        (autoInstances (activeOpenings ops))
      ++ List.insertionSort (fun a b => a.xStart ≤ b.xStart)
        (manualLayouts (activeOpenings ops)) := by
    rw [calculateOpeningLayouts]
    simp only [hact, Bool.false_eq_true, if_false, hautos]
  refine ⟨rfl, ?_, ?_⟩
  · rw [hlayout, List.length_append, autoFlow_length,
      (List.perm_insertionSort _ _).length_eq]
  · intro k hk d0
    rw [hlayout, List.getD_append _ _ d0 k (by rwa [autoFlow_length]),
      autoFlow_getD _ _ _ _ k hk]
    ring

/-- Counterexample to C3 as stated: one auto window of frame width 20 on a
    10-inch wall gives `spacing = (10 - 20) / 2 = -5`, NOT `max 0 ...` — the
    single instance starts at x = -5 < 0, not at 0. -/
theorem C3_counterexample :
    (calculateOpeningLayouts 10 [W3op]).map (fun p => p.xStart) = [-5]
    ∧ (-5 : ℚ) < 0 := by
  constructor
  · norm_num [calculateOpeningLayouts, activeOpenings, manualLayouts,
      autoInstances, autoSpacing, autoFlow, openingFrameWidth, W3op,
      List.insertionSort, List.filter, List.filterMap, List.replicate]
  · norm_num

/-- Witness for C3 on a 100-inch wall with the same window: spacing 40,
    single instance starting at 40. -/
theorem C3_witness :
    autoInstances (activeOpenings [W3op]) ≠ []
    ∧ (calculateOpeningLayouts 100 [W3op]).length = 1
    ∧ ∀ d0 : PositionedOpening,
        ((calculateOpeningLayouts 100 [W3op]).getD 0 d0).xStart =
          autoSpacing 100 [W3op] * (0 + 1) + 0 := by
  have hne : autoInstances (activeOpenings [W3op]) ≠ [] := by
    norm_num [autoInstances, activeOpenings, W3op, List.filter, List.replicate]
  have h := C3_auto_layout 100 [W3op] hne
  have hlen1 : (autoInstances (activeOpenings [W3op])).length = 1 := by
    norm_num [autoInstances, activeOpenings, W3op, List.filter, List.replicate]
  have hman0 : (manualLayouts (activeOpenings [W3op])).length = 0 := by
    norm_num [manualLayouts, activeOpenings, W3op, List.filter, List.filterMap]
  refine ⟨hne, by rw [h.2.1, hlen1, hman0], fun d0 => ?_⟩
  have h3 := h.2.2 0 (by rw [hlen1]; norm_num) d0
  simpa using h3

/-! ## Claim C7 -/
/-- C7: an active opening with `quantity == 1` and explicit `centerOffset c`
    is resolved at `xStart = c - frameWidth/2` with
    `frameWidth = width + 2*(kings + jacks)*1.5`. -/
theorem C7_manual_center (L : ℚ) (ops : List Opening) (op : Opening) (c : ℚ)
    (hmem : op ∈ ops) (hq : op.quantity = 1) (hc : op.centerOffset = some c)
    (hw : 0 < op.width) :
    ∃ p ∈ calculateOpeningLayouts L ops, p.opening = op ∧
      p.xStart = c - openingFrameWidth op / 2 ∧ p.center = c ∧
      p.frameWidth = openingFrameWidth op ∧
      p.xEnd = p.xStart + openingFrameWidth op := by
  have hact : op ∈ activeOpenings ops := by
    rw [activeOpenings, List.mem_filter]
    exact ⟨hmem, by simp [hq, hw]⟩
  set p0 : PositionedOpening :=
    ⟨op, 0, c - openingFrameWidth op / 2,
      c - openingFrameWidth op / 2 + openingFrameWidth op, c,
      openingFrameWidth op⟩ with hp0def
  have hp0 : p0 ∈ manualLayouts (activeOpenings ops) := by
    rw [manualLayouts, List.mem_filterMap]
    refine ⟨op, hact, ?_⟩
    rw [hc]
    simp [hq, hp0def]
  have hp0sorted : p0 ∈ List.insertionSort
      (fun a b => a.xStart ≤ b.xStart) (manualLayouts (activeOpenings ops)) :=
    (List.perm_insertionSort _ _).mem_iff.mpr hp0
  have hact_ne : (activeOpenings ops).isEmpty = false := by
    cases hempty : (activeOpenings ops).isEmpty
    · rfl
    · rw [List.isEmpty_iff] at hempty
      rw [hempty] at hact
      simp at hact
  refine ⟨p0, ?_, rfl, rfl, rfl, rfl, by simp [hp0def]⟩
  rw [calculateOpeningLayouts]
  simp only [hact_ne, Bool.false_eq_true, if_false]
  exact List.mem_append_right _ hp0sorted

/-- Witness for C7: a 36-inch window with one king and one jack per side,
    centered at 96 on a 192-inch wall, resolves at
    `xStart = 96 - 42/2 = 75`. -/
theorem C7_witness :
    ∃ p ∈ calculateOpeningLayouts 192 [W7op], p.opening = W7op ∧
      p.xStart = 75 ∧ p.center = 96 ∧ p.frameWidth = 42 := by
  obtain ⟨p, hp, hop, hx, hcen, hfw, _⟩ :=
    C7_manual_center 192 [W7op] W7op 96 (List.mem_singleton.mpr rfl) rfl rfl
      (by norm_num [W7op])
  refine ⟨p, hp, hop, ?_, hcen, ?_⟩
  · rw [hx]
    norm_num [openingFrameWidth, W7op, STUD_THICKNESS]
  · rw [hfw]
    norm_num [openingFrameWidth, W7op, STUD_THICKNESS]

/-! ## Claim C5 -/
/-- C5: for a door opening, the header sits at
    `y = max(topPlateHeight, wallHeight - bottomPlate - openingHeight - headerDepth)`
    (clamped so it never rises above the top plate); every king/jack member is
    either a full-height king at the top plate or a jack of height exactly the
    door's opening height sitting directly below the header; and any cripple
    above the header has height exactly the clamped header/top-plate gap
    `max 0 (...)` (zero — and then no cripples at all — when the header
    touches the top plate). -/
theorem C5_door_framing (d : WallDetails) (σ : Counters) (idx : ℕ)
    (layout : PositionedOpening) (hdoor : layout.opening.type = .door) :
    ∀ m ∈ (genOpening d (studHeightD d) (topPlateHeightD d) PLATE_THICKNESS
        (studDepths d.studSize) σ (idx, layout)).1,
      (m.type = .header → m.y = max (topPlateHeightD d)
        (d.wallHeight - PLATE_THICKNESS - layout.opening.height -
          headerHeights layout.opening.headerSize))
      ∧ (m.type = .kingJack →
          (m.h = studHeightD d ∧ m.y = topPlateHeightD d) ∨
          (m.h = layout.opening.height ∧
            m.y = max (topPlateHeightD d)
              (d.wallHeight - PLATE_THICKNESS - layout.opening.height -
                headerHeights layout.opening.headerSize)
              + headerHeights layout.opening.headerSize))
      ∧ (m.type = .cripple →
          m.h = max 0 ((d.wallHeight - PLATE_THICKNESS - layout.opening.height -
            headerHeights layout.opening.headerSize) - topPlateHeightD d)) := by
  intro m hm
  set tp := topPlateHeightD d with htp
  set hy0 := d.wallHeight - PLATE_THICKNESS - layout.opening.height -
    headerHeights layout.opening.headerSize with hhy0
  rw [genOpening] at hm
  simp only [hdoor] at hm
  by_cases hcl : hy0 - tp < 0
  · have hmax : max tp hy0 = tp := max_eq_left (by linarith)
    have hca : ¬ ((1.5 : ℚ) < 0) := by norm_num
    simp only [← hhy0, ← htp, if_pos hcl, if_neg hca, List.append_nil,
      List.mem_append, List.not_mem_nil, or_false, or_assoc] at hm
    rcases hm with hm | hm | hm | hm | hm
    · obtain ⟨σ', k, _, rfl⟩ := stMap_mem hm
      simp [hmax]
    · obtain ⟨σ', j, _, rfl⟩ := stMap_mem hm
      simp [hmax]
    · obtain ⟨σ', j, _, rfl⟩ := stMap_mem hm
      simp [hmax]
    · obtain ⟨σ', k, _, rfl⟩ := stMap_mem hm
      simp [hmax]
    · obtain ⟨p, _, rfl⟩ := List.mem_map.mp hm
      simp [hmax]
  · have hmax : max tp hy0 = hy0 := max_eq_right (by linarith)
    have hca : max 0 (hy0 - tp) = hy0 - tp := max_eq_right (by linarith)
    simp only [← hhy0, ← htp, if_neg hcl, List.append_nil] at hm
    by_cases hgap : (1.5 : ℚ) < hy0 - tp
    · simp only [if_pos hgap, List.mem_append, List.not_mem_nil, or_false,
        or_assoc] at hm
      rcases hm with hm | hm | hm | hm | hm | hm
      · obtain ⟨σ', k, _, rfl⟩ := stMap_mem hm
        simp [hmax]
      · obtain ⟨σ', j, _, rfl⟩ := stMap_mem hm
        simp [hmax]
      · obtain ⟨σ', j, _, rfl⟩ := stMap_mem hm
        simp [hmax]
      · obtain ⟨σ', k, _, rfl⟩ := stMap_mem hm
        simp [hmax]
      · obtain ⟨p, _, rfl⟩ := List.mem_map.mp hm
        simp [hmax]
      · obtain ⟨σ', cx, _, rfl⟩ := stMap_mem hm
        simp [hca]
    · simp only [if_neg hgap, List.mem_append, List.not_mem_nil, or_false,
        or_assoc] at hm
      rcases hm with hm | hm | hm | hm | hm
      · obtain ⟨σ', k, _, rfl⟩ := stMap_mem hm
        simp [hmax]
      · obtain ⟨σ', j, _, rfl⟩ := stMap_mem hm
        simp [hmax]
      · obtain ⟨σ', j, _, rfl⟩ := stMap_mem hm
        simp [hmax]
      · obtain ⟨σ', k, _, rfl⟩ := stMap_mem hm
        simp [hmax]
      · obtain ⟨p, _, rfl⟩ := List.mem_map.mp hm
        simp [hmax]

/-- Witness for C5 at a concrete door (32x81, 2x6 header) on a 97.125-inch
    double-top-plate wall. -/
theorem C5_witness :
    W5layout.opening.type = .door
    ∧ ∀ m ∈ (genOpening W5 (studHeightD W5) (topPlateHeightD W5) PLATE_THICKNESS
        (studDepths W5.studSize) [] (0, W5layout)).1,
      (m.type = .header → m.y = max (topPlateHeightD W5)
        (W5.wallHeight - PLATE_THICKNESS - W5layout.opening.height -
          headerHeights W5layout.opening.headerSize))
      ∧ (m.type = .kingJack →
          (m.h = studHeightD W5 ∧ m.y = topPlateHeightD W5) ∨
          (m.h = W5layout.opening.height ∧
            m.y = max (topPlateHeightD W5)
              (W5.wallHeight - PLATE_THICKNESS - W5layout.opening.height -
                headerHeights W5layout.opening.headerSize)
              + headerHeights W5layout.opening.headerSize))
      ∧ (m.type = .cripple →
          m.h = max 0 ((W5.wallHeight - PLATE_THICKNESS - W5layout.opening.height -
            headerHeights W5layout.opening.headerSize) - topPlateHeightD W5)) :=
  ⟨rfl, C5_door_framing W5 [] 0 W5layout rfl⟩

/-! ## Claim C9 -/
/-- C9: `generateWallMembers` is deterministic — fieldwise-equal WallSpecs
    produce identical member lists, element for element (ids and names
    included): the id counters are initialized inside each call, so no state
    survives between calls. -/
theorem C9_deterministic (d₁ d₂ : WallDetails)
    (h : d₁.wallLength = d₂.wallLength ∧ d₁.wallHeight = d₂.wallHeight ∧
      d₁.studSize = d₂.studSize ∧ d₁.studSpacing = d₂.studSpacing ∧
      d₁.studsOnCenter = d₂.studsOnCenter ∧ d₁.doubleTopPlate = d₂.doubleTopPlate ∧
      d₁.pressureTreatedBottomPlate = d₂.pressureTreatedBottomPlate ∧
      d₁.blockingRows = d₂.blockingRows ∧ d₁.startStuds = d₂.startStuds ∧
      d₁.endStuds = d₂.endStuds ∧ d₁.sheathing = d₂.sheathing ∧
      d₁.sheathingType = d₂.sheathingType ∧ d₁.openings = d₂.openings) :
    generateWallMembers d₁ = generateWallMembers d₂
    ∧ (generateWallMembers d₁).length = (generateWallMembers d₂).length
    ∧ ∀ (i : ℕ) (m0 : Member3D),
        (generateWallMembers d₁).getD i m0 = (generateWallMembers d₂).getD i m0 := by
  have hd : d₁ = d₂ := by
    cases d₁
    cases d₂
    simp_all
  subst hd
  exact ⟨rfl, rfl, fun i m0 => rfl⟩

/-- Witness for C9 at a concrete wall. -/
theorem C9_witness :
    generateWallMembers W9 = generateWallMembers W9
    ∧ (generateWallMembers W9).length = (generateWallMembers W9).length
    ∧ ∀ (i : ℕ) (m0 : Member3D),
        (generateWallMembers W9).getD i m0 = (generateWallMembers W9).getD i m0 :=
  C9_deterministic W9 W9
    ⟨rfl, rfl, rfl, rfl, rfl, rfl, rfl, rfl, rfl, rfl, rfl, rfl, rfl⟩

/-! ## Segment shape lemmas for `generateWallMembers` -/
theorem genStuds_types (sizeName : String) (sh tp dep : ℚ)
    (spans : List PositionedOpening) (σ : Counters) (xs : List ℚ) :
    ∀ m ∈ (genStuds sizeName sh tp dep spans σ xs).1, m.type = .stud := by
  induction xs generalizing σ with
  | nil => simp [genStuds]
  | cons x rest ih =>
    intro m hm
    rw [genStuds] at hm
    by_cases hin : insideSpan spans (x + STUD_THICKNESS / 2)
    · rw [if_pos hin] at hm
      exact ih _ m hm
    · rw [if_neg hin] at hm
      rcases List.mem_cons.mp hm with rfl | hm
      · rfl
      · exact ih _ m hm

theorem genStuds_count (sizeName : String) (sh tp dep : ℚ)
    (spans : List PositionedOpening) (σ : Counters) (xs : List ℚ) :
    (genStuds sizeName sh tp dep spans σ xs).1.length =
      xs.countP fun x => !insideSpan spans (x + STUD_THICKNESS / 2) := by
  induction xs generalizing σ with
  | nil => simp [genStuds]
  | cons x rest ih =>
    rw [genStuds, List.countP_cons]
    by_cases hin : insideSpan spans (x + STUD_THICKNESS / 2)
    · rw [if_pos hin]
      simp [hin, ih]
    · rw [if_neg hin]
      simp [hin, ih]

theorem genBlocking_types (sizeName : String) (wh dep : ℚ) (rows : ℕ)
    (spans : List PositionedOpening) (σ : Counters) (pairs : List (ℕ × ℚ × ℚ)) :
    ∀ m ∈ (genBlocking sizeName wh dep rows spans σ pairs).1, m.type = .blocking := by
  induction pairs generalizing σ with
  | nil => simp [genBlocking]
  | cons p rest ih =>
    intro m hm
    obtain ⟨i, a, b⟩ := p
    rw [genBlocking] at hm
    by_cases hc : 3 < b - (a + STUD_THICKNESS) ∧
        insideSpan spans ((a + STUD_THICKNESS) + (b - (a + STUD_THICKNESS)) / 2) = false
    · rw [if_pos hc] at hm
      rcases List.mem_append.mp hm with hm | hm
      · obtain ⟨σ', r, _, rfl⟩ := stMap_mem hm
        rfl
      · exact ih _ m hm
    · rw [if_neg hc] at hm
      exact ih _ m hm

theorem platesSegment_types (d : WallDetails) :
    ∀ m ∈ (platesSegment d).1, m.type = .plate ∨ m.type = .ptPlate := by
  intro m hm
  rw [platesSegment] at hm
  cases hdtp : d.doubleTopPlate <;> cases hpt : d.pressureTreatedBottomPlate <;>
    simp only [hdtp, hpt, Bool.false_eq_true, if_true, if_false, if_pos,
      List.mem_cons, List.not_mem_nil, or_false, reduceIte] at hm
  · rcases hm with rfl | rfl <;> simp
  · rcases hm with rfl | rfl <;> simp
  · rcases hm with rfl | rfl | rfl <;> simp
  · rcases hm with rfl | rfl | rfl <;> simp

theorem sheathingMembers_types (d : WallDetails) (dep : ℚ) :
    ∀ m ∈ sheathingMembers d dep, m.type = .sheathing := by
  intro m hm
  rw [sheathingMembers] at hm
  obtain ⟨k, _, hk⟩ := List.mem_flatMap.mp hm
  obtain ⟨j, _, rfl⟩ := List.mem_map.mp hk
  rfl

theorem mem_ite_list {α : Type} {c : Prop} [inst : Decidable c]
    {l₁ l₂ : List α} {a : α} (h : a ∈ (if c then l₁ else l₂)) :
    a ∈ l₁ ∨ a ∈ l₂ := by
  split at h
  · exact Or.inl h
  · exact Or.inr h

theorem mem_ite_pair {α β : Type} {c : Prop} [inst : Decidable c]
    {p q : List α × β} {a : α} (h : a ∈ (if c then p else q).1) :
    a ∈ p.1 ∨ a ∈ q.1 := by
  split at h
  · exact Or.inl h
  · exact Or.inr h

theorem genOpening_not_stud_blocking (d : WallDetails) (sh tp bp dep : ℚ)
    (σ : Counters) (idx : ℕ) (layout : PositionedOpening) :
    ∀ m ∈ (genOpening d sh tp bp dep σ (idx, layout)).1,
      m.type ≠ .stud ∧ m.type ≠ .blocking := by
  intro m hm
  rw [genOpening] at hm
  cases htype : layout.opening.type <;> simp only [htype] at hm
  · -- window
    simp only [List.mem_append, or_assoc] at hm
    rcases hm with hm | hm | hm | hm | hm | hm | hm
    · obtain ⟨σ', k, _, rfl⟩ := stMap_mem hm
      simp
    · obtain ⟨σ', j, _, rfl⟩ := stMap_mem hm
      simp
    · obtain ⟨σ', j, _, rfl⟩ := stMap_mem hm
      simp
    · obtain ⟨σ', k, _, rfl⟩ := stMap_mem hm
      simp
    · obtain ⟨p, _, rfl⟩ := List.mem_map.mp hm
      simp
    · rcases mem_ite_pair hm with hm | hm
      · obtain ⟨σ', cx, _, rfl⟩ := stMap_mem hm
        simp
      · simp at hm
    · rcases mem_ite_pair hm with hm | hm
      · rcases List.mem_cons.mp hm with rfl | hm
        · simp
        · obtain ⟨σ', cx, _, rfl⟩ := stMap_mem hm
          simp
      · rcases List.mem_singleton.mp hm with rfl
        simp
  · -- door
    simp only [List.mem_append, List.append_nil, or_assoc, List.not_mem_nil,
      or_false] at hm
    rcases hm with hm | hm | hm | hm | hm | hm
    · obtain ⟨σ', k, _, rfl⟩ := stMap_mem hm
      simp
    · obtain ⟨σ', j, _, rfl⟩ := stMap_mem hm
      simp
    · obtain ⟨σ', j, _, rfl⟩ := stMap_mem hm
      simp
    · obtain ⟨σ', k, _, rfl⟩ := stMap_mem hm
      simp
    · obtain ⟨p, _, rfl⟩ := List.mem_map.mp hm
      simp
    · rcases mem_ite_pair hm with hm | hm
      · obtain ⟨σ', cx, _, rfl⟩ := stMap_mem hm
        simp
      · simp at hm

theorem genBlocking_proj (sizeName : String) (wh dep : ℚ) (rows : ℕ)
    (spans : List PositionedOpening) (σ : Counters) (pairs : List (ℕ × ℚ × ℚ)) :
    ((genBlocking sizeName wh dep rows spans σ pairs).1).map
      (fun m => (m.x, m.y, m.w, m.h)) =
    pairs.flatMap fun p =>
      let currentEnd := p.2.1 + STUD_THICKNESS
      let gap := p.2.2 - currentEnd
      if 3 < gap ∧ insideSpan spans (currentEnd + gap / 2) = false then
        (List.range rows).map fun (r : ℕ) =>
          (currentEnd,
           wh / ((rows : ℚ) + 1) * ((r : ℚ) + 1) +
             (if p.1 % 2 = 0 then (-1.5 : ℚ) else 1.5),
           gap, (1.5 : ℚ))
      else []
    := by
  induction pairs generalizing σ with
  | nil => rfl
  | cons p rest ih =>
    obtain ⟨i, a, b⟩ := p
    rw [genBlocking, List.flatMap_cons]
    by_cases hc : 3 < b - (a + STUD_THICKNESS) ∧
        insideSpan spans ((a + STUD_THICKNESS) + (b - (a + STUD_THICKNESS)) / 2) = false
    · rw [if_pos hc]
      simp only [if_pos hc, List.map_append, ih]
      congr 1
      rw [stMap_map_proj _ _
        (fun r : ℕ => ((a + STUD_THICKNESS : ℚ),
          wh / ((rows : ℚ) + 1) * (r : ℚ) +
            (if i % 2 = 0 then (-1.5 : ℚ) else 1.5),
          b - (a + STUD_THICKNESS), (1.5 : ℚ)))
        (fun _ _ => rfl)]
      rw [List.map_map]
      apply List.map_congr_left
      intro r _
      simp only [Function.comp_apply]
      push_cast
      ring_nf
    · rw [if_neg hc]
      simp only [if_neg hc, ih, List.nil_append]

theorem filter_stud_eq (d : WallDetails) :
    (generateWallMembers d).filter (fun m => m.type == MemberType.stud) =
      (genStuds d.studSize.name (studHeightD d) (topPlateHeightD d)
        (studDepths d.studSize) (calculateOpeningLayouts d.wallLength d.openings)
        (platesSegment d).2 (sortedUniqueXs d)).1 := by
  rw [generateWallMembers]
  simp only [List.filter_append]
  have h1 : (platesSegment d).1.filter (fun m => m.type == MemberType.stud) = [] := by
    rw [List.filter_eq_nil_iff]
    intro m hm
    rcases platesSegment_types d m hm with h | h <;> simp [h]
  have h2 : ((genStuds d.studSize.name (studHeightD d) (topPlateHeightD d)
      (studDepths d.studSize) (calculateOpeningLayouts d.wallLength d.openings)
      (platesSegment d).2 (sortedUniqueXs d)).1).filter
        (fun m => m.type == MemberType.stud) =
      (genStuds d.studSize.name (studHeightD d) (topPlateHeightD d)
        (studDepths d.studSize) (calculateOpeningLayouts d.wallLength d.openings)
        (platesSegment d).2 (sortedUniqueXs d)).1 := by
    rw [List.filter_eq_self]
    intro m hm
    simp [genStuds_types _ _ _ _ _ _ _ m hm]
  have h3 : ∀ σ : Counters, ((if d.blockingRows = 0 then
      (([] : List Member3D), σ)
      else genBlocking d.studSize.name d.wallHeight (studDepths d.studSize)
        d.blockingRows (calculateOpeningLayouts d.wallLength d.openings) σ
        (gapPairs (sortedUniqueXs d))).1).filter
        (fun m => m.type == MemberType.stud) = [] := by
    intro σ
    rw [List.filter_eq_nil_iff]
    intro m hm
    rcases mem_ite_pair hm with hm | hm
    · simp at hm
    · simp [genBlocking_types _ _ _ _ _ _ _ m hm]
  have h4 : ∀ σ : Counters, ((stFlatMap (genOpening d (studHeightD d)
      (topPlateHeightD d) PLATE_THICKNESS (studDepths d.studSize)) σ
      (calculateOpeningLayouts d.wallLength d.openings).enum).1).filter
        (fun m => m.type == MemberType.stud) = [] := by
    intro σ
    rw [List.filter_eq_nil_iff]
    intro m hm
    obtain ⟨σ', a, _, hma⟩ := stFlatMap_mem hm
    have := (genOpening_not_stud_blocking d (studHeightD d) (topPlateHeightD d)
      PLATE_THICKNESS (studDepths d.studSize) σ' a.1 a.2 m (by
        rwa [show ((a.1, a.2) : ℕ × PositionedOpening) = a from rfl])).1
    simp [this]
  have h5 : ((if d.sheathing then sheathingMembers d (studDepths d.studSize)
      else []).filter (fun m => m.type == MemberType.stud)) = [] := by
    rw [List.filter_eq_nil_iff]
    intro m hm
    rcases mem_ite_list hm with hm | hm
    · simp [sheathingMembers_types d _ m hm]
    · simp at hm
  rw [h1, h2, h3, h4, h5]
  simp

theorem filter_blocking_eq (d : WallDetails) :
    (generateWallMembers d).filter (fun m => m.type == MemberType.blocking) =
      (if d.blockingRows = 0 then ([] : List Member3D)
       else (genBlocking d.studSize.name d.wallHeight (studDepths d.studSize)
        d.blockingRows (calculateOpeningLayouts d.wallLength d.openings)
        (genStuds d.studSize.name (studHeightD d) (topPlateHeightD d)
          (studDepths d.studSize)
          (calculateOpeningLayouts d.wallLength d.openings)
          (platesSegment d).2 (sortedUniqueXs d)).2
        (gapPairs (sortedUniqueXs d))).1) := by
  rw [generateWallMembers]
  simp only [List.filter_append]
  have h1 : (platesSegment d).1.filter (fun m => m.type == MemberType.blocking) = [] := by
    rw [List.filter_eq_nil_iff]
    intro m hm
    rcases platesSegment_types d m hm with h | h <;> simp [h]
  have h2 : ((genStuds d.studSize.name (studHeightD d) (topPlateHeightD d)
      (studDepths d.studSize) (calculateOpeningLayouts d.wallLength d.openings)
      (platesSegment d).2 (sortedUniqueXs d)).1).filter
        (fun m => m.type == MemberType.blocking) = [] := by
    rw [List.filter_eq_nil_iff]
    intro m hm
    simp [genStuds_types _ _ _ _ _ _ _ m hm]
  have h4 : ∀ σ : Counters, ((stFlatMap (genOpening d (studHeightD d)
      (topPlateHeightD d) PLATE_THICKNESS (studDepths d.studSize)) σ
      (calculateOpeningLayouts d.wallLength d.openings).enum).1).filter
        (fun m => m.type == MemberType.blocking) = [] := by
    intro σ
    rw [List.filter_eq_nil_iff]
    intro m hm
    obtain ⟨σ', a, _, hma⟩ := stFlatMap_mem hm
    have := (genOpening_not_stud_blocking d (studHeightD d) (topPlateHeightD d)
      PLATE_THICKNESS (studDepths d.studSize) σ' a.1 a.2 m (by
        rwa [show ((a.1, a.2) : ℕ × PositionedOpening) = a from rfl])).2
    simp [this]
  have h5 : ((if d.sheathing then sheathingMembers d (studDepths d.studSize)
      else []).filter (fun m => m.type == MemberType.blocking)) = [] := by
    rw [List.filter_eq_nil_iff]
    intro m hm
    rcases mem_ite_list hm with hm | hm
    · simp [sheathingMembers_types d _ m hm]
    · simp at hm
  rw [h1, h2, h4, h5]
  by_cases hrows : d.blockingRows = 0
  · simp [hrows]
  · rw [if_neg hrows, if_neg hrows]
    have h3 : ((genBlocking d.studSize.name d.wallHeight (studDepths d.studSize)
        d.blockingRows (calculateOpeningLayouts d.wallLength d.openings)
        (genStuds d.studSize.name (studHeightD d) (topPlateHeightD d)
          (studDepths d.studSize)
          (calculateOpeningLayouts d.wallLength d.openings)
          (platesSegment d).2 (sortedUniqueXs d)).2
        (gapPairs (sortedUniqueXs d))).1).filter
          (fun m => m.type == MemberType.blocking) =
        (genBlocking d.studSize.name d.wallHeight (studDepths d.studSize)
        d.blockingRows (calculateOpeningLayouts d.wallLength d.openings)
        (genStuds d.studSize.name (studHeightD d) (topPlateHeightD d)
          (studDepths d.studSize)
          (calculateOpeningLayouts d.wallLength d.openings)
          (platesSegment d).2 (sortedUniqueXs d)).2
        (gapPairs (sortedUniqueXs d))).1 := by
      rw [List.filter_eq_self]
      intro m hm
      simp [genBlocking_types _ _ _ _ _ _ _ m hm]
    rw [h3]
    simp

theorem flatMap_const_nil {α β : Type} (l : List α) :
    (l.flatMap fun _ => ([] : List β)) = [] := by
  induction l with
  | nil => rfl
  | cons a l ih => simp [ih]

/-- C6 (amended): `generateWallMembers` emits blocking exactly per
    `blockingSpec`: gaps are between adjacent DEDUPLICATED stud layout
    positions (before opening suppression, not the surviving studs), gap > 3
    and midpoint outside every opening span, one block per row at
    `wallHeight/(rows+1)*r` staggered `∓1.5` by the parity of the pair index
    over the full position list. -/
theorem C6_blocking (d : WallDetails) :
    ((generateWallMembers d).filter fun m => m.type == MemberType.blocking).map
      (fun m => (m.x, m.y, m.w, m.h)) = blockingSpec d := by
  rw [filter_blocking_eq]
  by_cases hrows : d.blockingRows = 0
  · rw [if_pos hrows]
    rw [blockingSpec]
    simp only [hrows, List.range_zero, List.map_nil, ite_self]
    rw [flatMap_const_nil]
  · rw [if_neg hrows, genBlocking_proj]
    rfl

theorem genStuds_map_x (sizeName : String) (sh tp dep : ℚ)
    (spans : List PositionedOpening) (σ : Counters) (xs : List ℚ) :
    ((genStuds sizeName sh tp dep spans σ xs).1).map (fun m => m.x) =
      xs.filter fun x => !insideSpan spans (x + STUD_THICKNESS / 2) := by
  induction xs generalizing σ with
  | nil => rfl
  | cons x rest ih =>
    rw [genStuds, List.filter_cons]
    by_cases hin : insideSpan spans (x + STUD_THICKNESS / 2)
    · rw [if_pos hin]
      simp [hin, ih]
    · rw [if_neg hin]
      simp [hin, ih]

/-- Counterexample to C6 as stated: on `W6` the position 15.25 is a
    deduplicated stud layout position whose center 16 lies strictly inside the
    opening span (15.75, 16.25), so it is suppressed and NO stud is drawn
    there — yet `generateWallMembers` emits a block spanning exactly
    [16.75, 31.25], i.e. the bay whose left edge is that suppressed position.
    Under the claim (gaps between adjacent SURVIVING positions only) no block
    could start at 16.75, since 15.25 is not a surviving stud position. -/
theorem C6_counterexample :
    ((16.75 : ℚ), (49.5 : ℚ), (14.5 : ℚ), (1.5 : ℚ)) ∈
      ((generateWallMembers W6).filter fun m => m.type == MemberType.blocking).map
        (fun m => (m.x, m.y, m.w, m.h))
    ∧ (15.25 : ℚ) ∉
        ((generateWallMembers W6).filter fun m => m.type == MemberType.stud).map
          (fun m => m.x)
    ∧ insideSpan (calculateOpeningLayouts W6.wallLength W6.openings)
        (15.25 + STUD_THICKNESS / 2) = true := by
  have hlay : calculateOpeningLayouts W6.wallLength W6.openings =
      [⟨W6op, 0, 15.75, 16.25, 16, 0.5⟩] := by
    norm_num [calculateOpeningLayouts, activeOpenings, manualLayouts, autoInstances,
      autoSpacing, autoFlow, openingFrameWidth, W6, W6op, List.insertionSort,
      List.orderedInsert, List.filter, List.filterMap, List.replicate, STUD_THICKNESS]
  have hxs : sortedUniqueXs W6 = [0, 15.25, 31.25, 47.25, 63.25, 79.25, 95.25,
      111.25, 127.25, 143.25, 159.25, 175.25, 191.25, 198.5] := by
    have h1 : (⌈(25 : ℚ) / 2⌉ : ℤ) = 13 := by norm_num [Int.ceil_eq_iff]
    have h2 : (12 : ℤ).toNat = 12 := rfl
    norm_num [sortedUniqueXs, geomUniqueXs, geomRawStudXs, W6, startStudCountD,
      endStudCountD, StudSpacing.val, ocIndices, h1, h2, List.range_succ,
      roundHundredths, jsRound, jsSetList, List.insertionSort, List.orderedInsert,
      STUD_THICKNESS, Int.floor_eq_iff]
  refine ⟨?_, ?_, ?_⟩
  · have hblock :
        ((generateWallMembers W6).filter fun m => m.type == MemberType.blocking).map
          (fun m => (m.x, m.y, m.w, m.h)) =
        [(1.5, 46.5, 13.75, 1.5), (16.75, 49.5, 14.5, 1.5), (32.75, 46.5, 14.5, 1.5),
         (48.75, 49.5, 14.5, 1.5), (64.75, 46.5, 14.5, 1.5), (80.75, 49.5, 14.5, 1.5),
         (96.75, 46.5, 14.5, 1.5), (112.75, 49.5, 14.5, 1.5), (128.75, 46.5, 14.5, 1.5),
         (144.75, 49.5, 14.5, 1.5), (160.75, 46.5, 14.5, 1.5), (176.75, 49.5, 14.5, 1.5),
         (192.75, 46.5, 5.75, 1.5)] := by
      rw [filter_blocking_eq, if_neg (by norm_num [W6]), genBlocking_proj, hxs, hlay]
      norm_num [gapPairs, List.zip, List.zipWith, List.enum, List.enumFrom,
        insideSpan, STUD_THICKNESS, W6, List.range_succ]
    rw [hblock]
    norm_num
  · have hstud :
        ((generateWallMembers W6).filter fun m => m.type == MemberType.stud).map
          (fun m => m.x) =
        [0, 31.25, 47.25, 63.25, 79.25, 95.25, 111.25, 127.25, 143.25, 159.25,
         175.25, 191.25, 198.5] := by
      rw [filter_stud_eq, genStuds_map_x, hxs, hlay]
      norm_num [insideSpan, List.filter, STUD_THICKNESS]
    rw [hstud]
    norm_num
  · rw [hlay]
    norm_num [insideSpan, STUD_THICKNESS]

theorem cutsRawStudKeys_eq_map (L : ℚ) (sc ec soc : ℕ) (s : ℚ) :
    cutsRawStudKeys L sc ec soc s =
      (geomRawStudXs L sc ec soc s).map fun x => jsRound (x * 100) := by
  rw [cutsRawStudKeys, geomRawStudXs]
  simp only [List.map_append, List.map_map, List.map_flatMap]
  congr 2
  funext i
  by_cases hc : ((sc : ℚ) - 1) * STUD_THICKNESS < (i : ℚ) * s - (soc : ℚ) * STUD_THICKNESS / 2 ∧
      (i : ℚ) * s - (soc : ℚ) * STUD_THICKNESS / 2 < L - (ec : ℚ) * STUD_THICKNESS
  · rw [if_pos hc, if_pos hc, List.map_map]
    rfl
  · rw [if_neg hc, if_neg hc, List.map_nil]

theorem intHundredthsToQ_injective : Function.Injective intHundredthsToQ := by
  intro a b h
  rw [intHundredthsToQ, intHundredthsToQ] at h
  field_simp at h
  exact_mod_cast h

theorem geomUniqueXs_eq_map (d : WallDetails) (hL : cutsWallLength d = d.wallLength) :
    geomUniqueXs d = (cutsStudKeySet d).map intHundredthsToQ := by
  rw [geomUniqueXs, cutsStudKeySet, hL, cutsRawStudKeys_eq_map]
  have hcomp : (geomRawStudXs d.wallLength (startStudCountD d) (endStudCountD d)
      d.studsOnCenter d.studSpacing.val).map roundHundredths =
      ((geomRawStudXs d.wallLength (startStudCountD d) (endStudCountD d)
        d.studsOnCenter d.studSpacing.val).map fun x => jsRound (x * 100)).map
        intHundredthsToQ := by
    rw [List.map_map]
    rfl
  rw [hcomp, jsSetList_map intHundredthsToQ_injective]

theorem decide_bool_eq_false (b : Bool) : decide (b = false) = !b := by
  cases b <;> rfl

/-- C1 (amended): PROVIDED the wall length is unchanged by the rounding that
    `calculateWallCuts` applies (`Math.round(wallLength)`, hypothesis `hL` —
    e.g. any integer wall length), the two paths agree on placement: the
    deduplicated stud positions coincide (geometry's hundredth-rounded
    rationals are exactly the cut path's integer hundredths divided by 100),
    the resolved opening spans are the same list, and the number of `stud`
    members emitted by `generateWallMembers` equals the number of common-stud
    lengths produced by `calculateWallCuts` (which classification then splits
    into precut tallies plus stud cuts). Without `hL` the paths disagree —
    see `C1_counterexample`. -/
theorem C1_placement_agreement (d : WallDetails)
    (hL : cutsWallLength d = d.wallLength) :
    (sortedUniqueXs d).toFinset =
      ((cutsStudKeySet d).map intHundredthsToQ).toFinset
    ∧ cutsLayouts d = calculateOpeningLayouts d.wallLength d.openings
    ∧ ((generateWallMembers d).filter fun m => m.type == MemberType.stud).length =
        (cutsCommonStudLengths d).length := by
  have hlay : cutsLayouts d = calculateOpeningLayouts d.wallLength d.openings := by
    rw [cutsLayouts, hL]
  refine ⟨?_, hlay, ?_⟩
  · rw [← geomUniqueXs_eq_map d hL]
    ext a
    simp only [List.mem_toFinset, sortedUniqueXs]
    rw [(List.perm_insertionSort _ _).mem_iff]
  · rw [filter_stud_eq, genStuds_count, cutsCommonStudLengths, List.length_map,
      hlay, ← List.countP_eq_length_filter]
    rw [show sortedUniqueXs d = List.insertionSort (· ≤ ·) (geomUniqueXs d) from rfl,
      (List.perm_insertionSort _ _).countP_eq, geomUniqueXs_eq_map d hL,
      List.countP_map]
    apply List.countP_congr
    intro z _
    simp only [Function.comp_apply, decide_bool_eq_false, intHundredthsToQ]

/-- Witness for C1 at the integer-length wall `W9` (192 inches). -/
theorem C1_witness :
    cutsWallLength W9 = W9.wallLength
    ∧ ((sortedUniqueXs W9).toFinset =
        ((cutsStudKeySet W9).map intHundredthsToQ).toFinset
      ∧ cutsLayouts W9 = calculateOpeningLayouts W9.wallLength W9.openings
      ∧ ((generateWallMembers W9).filter fun m => m.type == MemberType.stud).length =
          (cutsCommonStudLengths W9).length) := by
  have hL : cutsWallLength W9 = W9.wallLength := by
    norm_num [cutsWallLength, jsRound, W9]
  exact ⟨hL, C1_placement_agreement W9 hL⟩

/-- Counterexample to C1 as stated (for EVERY WallSpec): at wall length 100.5
    the cut path rounds to 101 and places its end stud at 99.5, while the
    geometry path places it at 99 — the deduplicated position sets differ, so
    the two paths do not agree on placement. -/
theorem C1_counterexample :
    ¬ ((sortedUniqueXs W1).toFinset =
        ((cutsStudKeySet W1).map intHundredthsToQ).toFinset
      ∧ cutsLayouts W1 = calculateOpeningLayouts W1.wallLength W1.openings
      ∧ ((generateWallMembers W1).filter fun m => m.type == MemberType.stud).length =
          (cutsCommonStudLengths W1).length) := by
  intro h
  have hxs : sortedUniqueXs W1 = [0, 15.25, 31.25, 47.25, 63.25, 79.25, 95.25, 99] := by
    have h1 : (⌈(201 : ℚ) / 32⌉ : ℤ) = 7 := by norm_num [Int.ceil_eq_iff]
    have h2 : (6 : ℤ).toNat = 6 := rfl
    norm_num [sortedUniqueXs, geomUniqueXs, geomRawStudXs, W1, startStudCountD,
      endStudCountD, StudSpacing.val, ocIndices, h1, h2, List.range_succ,
      roundHundredths, jsRound, jsSetList, List.insertionSort, List.orderedInsert,
      STUD_THICKNESS, Int.floor_eq_iff]
  have hkeys : (cutsStudKeySet W1).map intHundredthsToQ =
      [0, 99.5, 15.25, 31.25, 47.25, 63.25, 79.25, 95.25] := by
    have h1 : (⌈(101 : ℚ) / 16⌉ : ℤ) = 7 := by norm_num [Int.ceil_eq_iff]
    have h2 : (6 : ℤ).toNat = 6 := rfl
    norm_num [cutsStudKeySet, cutsRawStudKeys, cutsWallLength, W1, startStudCountD,
      endStudCountD, StudSpacing.val, ocIndices, h1, h2, List.range_succ, jsRound,
      jsSetList, STUD_THICKNESS, Int.floor_eq_iff, intHundredthsToQ]
  have h1 := h.1
  rw [hxs, hkeys] at h1
  have h99 : (99 : ℚ) ∈
      ([0, 15.25, 31.25, 47.25, 63.25, 79.25, 95.25, 99] : List ℚ).toFinset := by
    simp
  rw [h1, List.mem_toFinset] at h99
  norm_num at h99
